import Mathlib

/-!
# Fireworks particles: a shallow embedding of `src/main.cpp`

The simulation is embedded as pure functions over explicit state.

* Floating-point scalars (`qpl::f64`, the components of `qpl::vector2f`) are idealised as
  elements of a linear ordered field `α`; rounding is not modelled, except in
  `rocket.update_rounded`, which takes the rounding operations as a parameter.
* Wall-clock reads are explicit: every clock query of one frame sees the reading `now`
  carried by `event_info`.
* Pseudo-random draws are explicit arguments (`spawn_draws`, `rocket_draws`).
* The external colour, sprite and numeric routines of the qpl/qsf library are taken as a
  parameter `lib : qlib α C S`, with `C` the colour type and `S` the sprite type.
-/

namespace Fireworks

/-- Two-component vector, `qpl::vector2f`. -/
@[ext]
structure vec (α : Type) where
  x : α
  y : α

/-- The per-frame data handed to every `update`: `frame_time` is `event.frame_time_f()`, and
`now` is the wall-clock reading seen by the clock queries made during the frame. -/
structure event_info (α : Type) where
  frame_time : α
  now : α

/-- Drawable circle `qsf::circle`: the attributes written by the simulation. The drawing
origin moved by `centerize_origin` is a rendering detail and is not recorded. -/
structure circle (α C : Type) where
  position : vec α
  radius : α
  color : C

/-- The `rocket` struct of the source. -/
structure rocket (α C : Type) where
  circle : circle α C
  position : vec α
  velocity : vec α
  color_n : α
  active : Bool

/-- Modelled from the spec: the external clocks `qpl::clock` and `qpl::small_clock`, which are
not part of this repository. A clock remembers the reading of its last reset; the spec
describes its queries as "has this duration elapsed since last reset" and the elapsed time. -/
structure clock (α : Type) where
  start : α

/-- The `particle` struct of the source. -/
structure particle (α C : Type) where
  circle : circle α C
  position : vec α
  velocity : vec α
  life_time : α
  radius : α
  clock : clock α
  active : Bool
  start_color : C
  end_color : C

/-- The `explosion` struct of the source. `respawn` is a `qpl::size` (unsigned 64 bit). -/
structure explosion (α C S : Type) where
  particles : List (particle α C)
  position : vec α
  respawn : ℕ
  respawn_time : α
  respawn_clock : clock α
  start_color : C
  end_color : C
  sprite : S
  light_clock : clock α
  sprite_velocity : vec α
  color_n : α

/-- The external qpl/qsf routines used by the source, taken as a parameter: numeric helpers,
the colour type `C` (`qsf::rgb`) and the sprite type `S` (`qsf::sprite`). -/
structure qlib (α C S : Type) where
  pi : α
  cos : α → α
  sin : α → α
  fmod : α → α → α
  white : C
  unset : C
  is_unset : C → Bool
  interpolated : C → C → α → C
  get_rainbow_color : α → C
  with_alpha : C → α → C
  circle_new : circle α C
  sprite_new : S
  set_texture : S → S
  set_scale : S → α → S
  set_center : S → vec α → S
  get_color : S → C
  set_color : S → C → S
  get_position : S → vec α
  set_position : S → vec α → S

/-- The values drawn by the argument-less `explosion::spawn()`, in the order of its
`qpl::random` calls; `boost` is drawn only when `size < 10`. -/
structure spawn_draws (α : Type) where
  size : ℕ
  velocity : ℤ
  respawn : ℕ
  respawn_time : α
  life_time : α
  radius : α
  boost : α

/-- The values drawn by `rocket::randomize`. -/
structure rocket_draws (α : Type) where
  x : α
  vx : ℤ
  vy : ℤ

/-- The members of a default-constructed `explosion` that have no initialiser in the source
and are therefore indeterminate until first assigned. -/
structure explosion_uninit (α : Type) where
  respawn : ℕ
  respawn_time : α
  color_n : α

/-- The simulation state `main_state`: the two pools and the launch clock. The launch-interval
generator `spawn_gen` is external; the value it yields each frame is a frame input. -/
structure main_state (α C S : Type) where
  rockets : List (rocket α C)
  explosions : List (explosion α C S)
  spawn_clock : clock α

/-- Everything one call of `main_state::updating` reads from outside the state: the frame
event, the run time, the interval yielded by `spawn_gen.get()`, the viewport, and the random
draws (`death k` for the explosion of rocket `k`, `wave j` for a respawn wave of explosion
`j`), together with the indeterminate members of freshly constructed pool slots. -/
structure frame_input (α : Type) where
  event : event_info α
  run_time : α
  interval : α
  dimension : vec α
  jitter : α
  launch : rocket_draws α
  rocket_color_n : α
  fresh : ℕ → explosion_uninit α
  death : ℕ → spawn_draws α
  wave : ℕ → spawn_draws α

section scalar

variable {α : Type} [LinearOrderedField α] {C S : Type}

/-- Constant `info::gravity`. -/
def info.gravity : α := 200

/-- Component-wise sum, `operator+` of `qpl::vector2f`. -/
def vec.add (a b : vec α) : vec α := ⟨a.x + b.x, a.y + b.y⟩

/-- Scaling by a scalar, `operator*` of `qpl::vector2f`. -/
def vec.scale (a : vec α) (k : α) : vec α := ⟨a.x * k, a.y * k⟩

/-- Modelled from the spec: the external helper `qpl::clamp_0_1`, which is not part of this
repository; it clamps its argument to the interval from 0 to 1. -/
def clamp_0_1 (v : α) : α := max 0 (min 1 v)

/-- Setter `qsf::circle::set_radius`. -/
def circle.set_radius (c : circle α C) (radius : α) : circle α C := { c with radius := radius }

/-- Setter `qsf::circle::set_position`. -/
def circle.set_position (c : circle α C) (position : vec α) : circle α C :=
  { c with position := position }

/-- Setter `qsf::circle::set_color`. -/
def circle.set_color (c : circle α C) (color : C) : circle α C := { c with color := color }

/-- Method `rocket::set_radius`. -/
def rocket.set_radius (r : rocket α C) (radius : α) : rocket α C :=
  { r with circle := r.circle.set_radius radius }

/-- Method `rocket::set_position`. -/
def rocket.set_position (r : rocket α C) (pos : vec α) : rocket α C :=
  { r with position := pos, circle := r.circle.set_position pos }

/-- Method `rocket::update`: the new state together with the returned flag. The arithmetic
is exact: the rounding of the single-precision members of `qpl::vector2f` is not modelled
here, it is in `rocket.update_rounded`. -/
def rocket.update (r : rocket α C) (event : event_info α) : rocket α C × Bool :=
  if !r.active then (r, false)
  else
    let r1 : rocket α C :=
      { r with position := r.position.add (r.velocity.scale event.frame_time) }
    let r2 : rocket α C :=
      { r1 with velocity := r1.velocity.add ⟨0, info.gravity * event.frame_time⟩ }
    let f := 1 - clamp_0_1 (-r2.velocity.y / 300)
    let r3 := r2.set_radius (1 + 5 * f)
    let r4 : rocket α C := { r3 with circle := r3.circle.set_position r3.position }
    if 0 ≤ r4.velocity.y then ({ r4 with active := false }, true)
    else (r4, false)

/-- Default-constructed `rocket`: radius 3, `active = true`; `color_n` has no initialiser in
the source, so its indeterminate value is an argument. -/
def rocket.init (lib : qlib α C S) (color_n : α) : rocket α C :=
  rocket.set_radius
    { circle := lib.circle_new, position := ⟨0, 0⟩, velocity := ⟨0, 0⟩, color_n := color_n,
      active := true } 3

/-- Method `rocket::randomize`, with its three random draws `d`; the width only bounds the
range from which `d.x` is drawn. -/
def rocket.randomize (lib : qlib α C S) (r : rocket α C) (color_n _width height : α)
    (d : rocket_draws α) : rocket α C :=
  let r1 := r.set_position ⟨d.x, height⟩
  let r2 : rocket α C := { r1 with velocity := { r1.velocity with x := (d.vx : α) } }
  let r3 : rocket α C := { r2 with velocity := { r2.velocity with y := (d.vy : α) } }
  let r4 : rocket α C := { r3 with color_n := color_n }
  let color := lib.interpolated (lib.get_rainbow_color r4.color_n) lib.white (3 / 10)
  { r4 with circle := r4.circle.set_color color, active := true }

/-- Clock reset: remember the current reading. -/
def clock.reset (_c : clock α) (now : α) : clock α := ⟨now⟩

/-- Time elapsed since the last reset, `elapsed_f()`. -/
def clock.elapsed_f (c : clock α) (now : α) : α := now - c.start

/-- Query `has_elapsed(d)`: the duration `d` has elapsed since the last reset. -/
def clock.has_elapsed (c : clock α) (now d : α) : Bool := decide (d ≤ c.elapsed_f now)

/-- Query `has_elapsed_reset(d)`: as `has_elapsed`, and the clock resets on elapse. -/
def clock.has_elapsed_reset (c : clock α) (now d : α) : clock α × Bool :=
  if c.has_elapsed now d then (c.reset now, true) else (c, false)

/-- Method `particle::update_radius`. -/
def particle.update_radius (p : particle α C) (percentage : α) : particle α C :=
  { p with circle := p.circle.set_radius (p.radius * percentage) }

/-- Method `particle::update_color`. -/
def particle.update_color (lib : qlib α C S) (p : particle α C) (percentage : α) :
    particle α C :=
  { p with circle := p.circle.set_color (lib.interpolated p.start_color p.end_color percentage) }

/-- Method `particle::set_radius`. -/
def particle.set_radius (p : particle α C) (radius : α) : particle α C :=
  particle.update_radius { p with radius := radius } 1

/-- Default-constructed `particle`, its clock started at `now`. The member `radius` has no
initialiser in the source; `spawn` assigns it before any read, and the model starts it at 0. -/
def particle.init (lib : qlib α C S) (now : α) : particle α C :=
  { circle := lib.circle_new, position := ⟨0, 0⟩, velocity := ⟨0, 0⟩, life_time := 1,
    radius := 0, clock := ⟨now⟩, active := true, start_color := lib.white,
    end_color := lib.white }

/-- Method `particle::update`. -/
def particle.update (lib : qlib α C S) (p : particle α C) (event : event_info α) :
    particle α C :=
  if !p.active then p
  else
    let p1 : particle α C :=
      { p with position := p.position.add (p.velocity.scale event.frame_time) }
    let p2 : particle α C :=
      { p1 with velocity := p1.velocity.add ⟨0, info.gravity * event.frame_time⟩ }
    let p3 : particle α C := { p2 with circle := p2.circle.set_position p2.position }
    if p3.clock.has_elapsed event.now p3.life_time then { p3 with active := false }
    else
      let f := p3.clock.elapsed_f event.now / p3.life_time
      particle.update_color lib (p3.update_radius (1 - f)) (1 - f)

/-- Method `explosion::set_texture`. -/
def explosion.set_texture (lib : qlib α C S) (e : explosion α C S) : explosion α C S :=
  { e with sprite := lib.set_scale (lib.set_texture e.sprite) (11 / 10) }

/-- Method `explosion::set_position`. -/
def explosion.set_position (lib : qlib α C S) (e : explosion α C S) (position : vec α) :
    explosion α C S :=
  { e with position := position, sprite := lib.set_center e.sprite position }

/-- Method `explosion::particle_size`. -/
def explosion.particle_size (e : explosion α C S) : ℕ := e.particles.length

/-- The scan of `explosion::active`: true at the first particle whose flag is set. -/
def any_active : List (particle α C) → Bool
  | [] => false
  | i :: rest => if i.active then true else any_active rest

/-- Method `explosion::active`. -/
def explosion.active (e : explosion α C S) : Bool := any_active e.particles

/-- Method `explosion::clear`. -/
def explosion.clear (lib : qlib α C S) (e : explosion α C S) (now : α) : explosion α C S :=
  { e with
    particles := []
    light_clock := e.light_clock.reset now
    respawn_clock := e.respawn_clock.reset now
    start_color := lib.unset
    end_color := lib.unset
    sprite_velocity := ⟨0, 0⟩ }

/-- Default-constructed `explosion`: the member initialisers, then the constructor body
`clear()`. The members without initialiser take the indeterminate values `u`. -/
def explosion.init (lib : qlib α C S) (now : α) (u : explosion_uninit α) : explosion α C S :=
  explosion.clear lib
    { particles := [], position := ⟨0, 0⟩, respawn := u.respawn,
      respawn_time := u.respawn_time, respawn_clock := ⟨now⟩, start_color := lib.unset,
      end_color := lib.unset, sprite := lib.sprite_new, light_clock := ⟨now⟩,
      sprite_velocity := ⟨0, 0⟩, color_n := u.color_n } now

/-- Body of the `for` loop of `explosion::spawn` for index `i`, applied to `particles[i]`;
`s` is the pool size before the resize and `e` the explosion after its colours are set. -/
def explosion.spawn_body (lib : qlib α C S) (e : explosion α C S) (s size : ℕ)
    (velocity life_time radius : α) (i : ℕ) (p : particle α C) : particle α C :=
  let progress := ((i - s : ℕ) : α) / (size : α)
  let angle := progress * 2 * lib.pi
  let x := lib.cos angle
  let y := lib.sin angle
  let p1 := p.set_radius radius
  let p2 : particle α C := { p1 with life_time := life_time }
  let p3 : particle α C := { p2 with start_color := e.start_color }
  let p4 : particle α C := { p3 with end_color := e.end_color }
  let p5 : particle α C := { p4 with position := e.position }
  { p5 with velocity := (vec.mk x y).scale velocity }

/-- The `for` loop of `explosion::spawn`: `n` iterations from index `i`, each rewriting
`particles[i]` in place. -/
def spawn_loop (body : ℕ → particle α C → particle α C) :
    ℕ → ℕ → List (particle α C) → List (particle α C)
  | _, 0, ps => ps
  | i, n + 1, ps => spawn_loop body (i + 1) n (ps.modify (body i) i)

/-- Method `explosion::spawn(size, velocity, respawn, respawn_time, life_time, radius)`. -/
def explosion.spawn (lib : qlib α C S) (e : explosion α C S) (now : α) (size : ℕ)
    (velocity : α) (respawn : ℕ) (respawn_time life_time radius : α) : explosion α C S :=
  let e1 : explosion α C S := { e with respawn := respawn }
  let e2 : explosion α C S := { e1 with respawn_time := respawn_time }
  let s := e2.particles.length
  let e3 : explosion α C S :=
    { e2 with particles := e2.particles ++ List.replicate size (particle.init lib now) }
  let e4 : explosion α C S := { e3 with light_clock := e3.light_clock.reset now }
  let e5 : explosion α C S :=
    if lib.is_unset e4.start_color then
      { e4 with
        start_color := lib.interpolated (lib.get_rainbow_color e4.color_n) lib.white (3 / 10)
        end_color := lib.get_rainbow_color (lib.fmod (e4.color_n + 2 / 10) 1)
        sprite := lib.set_color e4.sprite (lib.get_rainbow_color e4.color_n) }
    else e4
  { e5 with
    particles :=
      spawn_loop (explosion.spawn_body lib e5 s size velocity life_time radius) s size
        e5.particles }

/-- Method `explosion::spawn()` without arguments, with its random draws `d`. -/
def explosion.spawn0 (lib : qlib α C S) (e : explosion α C S) (now : α) (d : spawn_draws α) :
    explosion α C S :=
  let radius := if d.size < 10 then d.radius * d.boost else d.radius
  e.spawn lib now d.size (d.velocity : α) d.respawn d.respawn_time d.life_time radius

/-- Method `explosion::update`; `d` are the draws of the `spawn()` it may call. The
decrement of the unsigned `respawn` wraps modulo `2 ^ 64`. -/
def explosion.update (lib : qlib α C S) (e : explosion α C S) (event : event_info α)
    (d : spawn_draws α) : explosion α C S :=
  let q : clock α × Bool :=
    if e.respawn ≠ 0 then e.respawn_clock.has_elapsed_reset event.now e.respawn_time
    else (e.respawn_clock, false)
  let e1 : explosion α C S := { e with respawn_clock := q.1 }
  let e2 : explosion α C S :=
    if q.2 then
      let e' := e1.spawn0 lib event.now d
      { e' with respawn := (e'.respawn + (2 ^ 64 - 1)) % 2 ^ 64 }
    else e1
  let e3 : explosion α C S :=
    { e2 with particles := e2.particles.map (fun p => particle.update lib p event) }
  let f := clamp_0_1 (e3.light_clock.elapsed_f event.now / (3 / 4))
  let color := lib.get_color e3.sprite
  let e4 : explosion α C S :=
    { e3 with sprite := lib.set_color e3.sprite (lib.with_alpha color (100 * (1 - f))) }
  let e5 : explosion α C S :=
    { e4 with
      sprite_velocity :=
        { e4.sprite_velocity with
          y := e4.sprite_velocity.y + info.gravity * event.frame_time } }
  { e5 with
    sprite :=
      lib.set_position e5.sprite
        ((lib.get_position e5.sprite).add ⟨0, e5.sprite_velocity.y * event.frame_time⟩) }

/-- The condition of the `if` in `explosion::update`: waves are pending and the respawn
clock has elapsed the respawn interval. -/
def explosion.wave_due (e : explosion α C S) (event : event_info α) : Bool :=
  decide (e.respawn ≠ 0) && e.respawn_clock.has_elapsed event.now e.respawn_time

/-- State of an explosion before call `k` of a run of consecutive `update` calls, call `j`
being driven by the event `ev j` and the draws `ds j`. -/
def explosion.run (lib : qlib α C S) (e : explosion α C S) (ev : ℕ → event_info α)
    (ds : ℕ → spawn_draws α) : ℕ → explosion α C S
  | 0 => e
  | k + 1 => (explosion.run lib e ev ds k).update lib (ev k) (ds k)

/-- Number of spawn waves triggered by the first `k` `update` calls of a run. -/
def explosion.waves (lib : qlib α C S) (e : explosion α C S) (ev : ℕ → event_info α)
    (ds : ℕ → spawn_draws α) : ℕ → ℕ
  | 0 => 0
  | k + 1 =>
    explosion.waves lib e ev ds k + if (e.run lib ev ds k).wave_due (ev k) then 1 else 0

/-- The launch scan of `main_state::updating`: randomize the first inactive rocket and
stop; the flag is the local `found`. -/
def launch_scan (lib : qlib α C S) (color_n width height : α) (d : rocket_draws α) :
    List (rocket α C) → List (rocket α C) × Bool
  | [] => ([], false)
  | i :: rest =>
    if !i.active then (rocket.randomize lib i color_n width height d :: rest, true)
    else ((launch_scan lib color_n width height d rest).1.cons i,
      (launch_scan lib color_n width height d rest).2)

/-- The launch of one rocket in `main_state::updating`: reuse the first inactive slot, else
`push_back` a new slot and randomize it; `junk` is the unset `color_n` of a new slot. -/
def main_state.launch (lib : qlib α C S) (rockets : List (rocket α C))
    (color_n width height : α) (d : rocket_draws α) (junk : α) : List (rocket α C) :=
  let q := launch_scan lib color_n width height d rockets
  if !q.2 then q.1 ++ [rocket.randomize lib (rocket.init lib junk) color_n width height d]
  else q.1

/-- What `main_state::updating` does to a reclaimed or new explosion `e` for the dead rocket
`i`: set its hue and position, then `spawn()`. -/
def explosion.ignite (lib : qlib α C S) (e : explosion α C S) (i : rocket α C) (now : α)
    (d : spawn_draws α) : explosion α C S :=
  let e1 : explosion α C S := { e with color_n := i.color_n }
  (e1.set_position lib i.position).spawn0 lib now d

/-- The explosion scan of `main_state::updating` for the dead rocket `i`: clear and reuse the
first explosion that is not active and stop; the flag is the local `found`. -/
def explode_scan (lib : qlib α C S) (i : rocket α C) (now : α) (d : spawn_draws α) :
    List (explosion α C S) → List (explosion α C S) × Bool
  | [] => ([], false)
  | e :: rest =>
    if !e.active then ((e.clear lib now).ignite lib i now d :: rest, true)
    else ((explode_scan lib i now d rest).1.cons e, (explode_scan lib i now d rest).2)

/-- The explosion birth of `main_state::updating` for the dead rocket `i`: reuse the first
explosion that is not active, else `push_back` a new one and give it the texture. -/
def main_state.explode (lib : qlib α C S) (explosions : List (explosion α C S))
    (i : rocket α C) (now : α) (d : spawn_draws α) (u : explosion_uninit α) :
    List (explosion α C S) :=
  let q := explode_scan lib i now d explosions
  if !q.2 then
    q.1 ++ [((explosion.init lib now u).set_texture lib).ignite lib i now d]
  else q.1

/-- The rocket loop of `main_state::updating` from pool index `k`: update each rocket and,
when its `update` returns true, give it an explosion. -/
def rockets_loop (lib : qlib α C S) (inp : frame_input α) :
    ℕ → List (rocket α C) → List (explosion α C S) →
      List (rocket α C) × List (explosion α C S)
  | _, [], explosions => ([], explosions)
  | k, i :: rest, explosions =>
    let q := i.update inp.event
    let explosions1 :=
      if q.2 then main_state.explode lib explosions q.1 inp.event.now (inp.death k) (inp.fresh k)
      else explosions
    let r := rockets_loop lib inp (k + 1) rest explosions1
    (q.1 :: r.1, r.2)

/-- The call `this->update(this->explosions)`: update every explosion, from pool index `j`. -/
def update_explosions (lib : qlib α C S) (inp : frame_input α) :
    ℕ → List (explosion α C S) → List (explosion α C S)
  | _, [] => []
  | j, e :: rest =>
    e.update lib inp.event (inp.wave j) :: update_explosions lib inp (j + 1) rest

/-- Method `main_state::updating`, after the start-up wait for the space bar (which touches
no simulation state). -/
def main_state.updating (lib : qlib α C S) (m : main_state α C S) (inp : frame_input α) :
    main_state α C S :=
  let color_n := lib.fmod (inp.run_time / 20 + 1 / 2) 1
  let q := m.spawn_clock.has_elapsed_reset inp.event.now inp.interval
  let m1 : main_state α C S := { m with spawn_clock := q.1 }
  let m2 : main_state α C S :=
    if q.2 then
      { m1 with
        rockets :=
          main_state.launch lib m1.rockets (lib.fmod (color_n + inp.jitter) 1)
            inp.dimension.x inp.dimension.y inp.launch inp.rocket_color_n }
    else m1
  let r := rockets_loop lib inp 0 m2.rockets m2.explosions
  { m2 with rockets := r.1, explosions := update_explosions lib inp 0 r.2 }

/-- State of a rocket before frame `k` of a run of consecutive `update` calls, frame `j`
being driven by `ev j`, with no `randomize` in between. -/
def rocket.run (r : rocket α C) (ev : ℕ → event_info α) : ℕ → rocket α C
  | 0 => r
  | k + 1 => ((rocket.run r ev k).update (ev k)).1

/-- Value returned by `update` in frame `k` of the run. -/
def rocket.fired (r : rocket α C) (ev : ℕ → event_info α) (k : ℕ) : Bool :=
  ((r.run ev k).update (ev k)).2

/-- Cumulative frame time of the first `k` frames. -/
def total_time (ev : ℕ → event_info α) : ℕ → α
  | 0 => 0
  | k + 1 => total_time ev k + (ev k).frame_time

end scalar

/-- The reuse scan shared by both pools, "first free slot, else none": rewrite the first
element that is `free` with `f` and stop; the flag tells whether one was found. It is used to
reason about `launch_scan` and `explode_scan`, which are instances of it. -/
def scan_first {β : Type} (free : β → Bool) (f : β → β) : List β → List β × Bool
  | [] => ([], false)
  | x :: rest =>
    if free x then (f x :: rest, true)
    else ((scan_first free f rest).1.cons x, (scan_first free f rest).2)

/-- A small concrete instance of the external colour and sprite routines, used to evaluate
the model on explicit inputs: a colour is `none` (unset) or a grey level, a sprite is its
position and colour. The numeric routines are arguments. -/
def sample_lib {α : Type} [LinearOrderedField α] (pi : α) (cos sin : α → α)
    (fmod : α → α → α) : qlib α (Option α) (vec α × Option α) where
  pi := pi
  cos := cos
  sin := sin
  fmod := fmod
  white := some 255
  unset := none
  is_unset := fun c => c.isNone
  interpolated := fun a b p =>
    match a, b with
    | some u, some v => some (u + (v - u) * p)
    | _, _ => a
  get_rainbow_color := fun h => some (255 * h)
  with_alpha := fun c _ => c
  circle_new := ⟨⟨0, 0⟩, 0, some 255⟩
  sprite_new := (⟨0, 0⟩, some 255)
  set_texture := fun s => s
  set_scale := fun s _ => s
  set_center := fun s p => (p, s.2)
  get_color := fun s => s.2
  set_color := fun s c => (s.1, c)
  get_position := fun s => s.1
  set_position := fun s p => (p, s.2)

/-- The sample instance over the rationals; its `pi`, `cos` and `sin` are placeholders, and
`fmod` is the truncating remainder. -/
def rat_lib : qlib ℚ (Option ℚ) (vec ℚ × Option ℚ) :=
  sample_lib 3 (fun _ => 1) (fun _ => 0)
    (fun a b => a - b * (if 0 ≤ a / b then ⌊a / b⌋ else ⌈a / b⌉))

/-- A rocket in flight with `velocity.y = -400` (Scenario A). -/
def flight_A : rocket ℚ (Option ℚ) :=
  { circle := ⟨⟨0, 0⟩, 3, none⟩, position := ⟨0, 0⟩, velocity := ⟨0, -400⟩, color_n := 0,
    active := true }

/-- An explosion after an initial wave of 4 particles that leaves 2 respawn waves pending at
an interval of 0.01 s (Scenario C), its clocks started at time 0. -/
def scenario_C : explosion ℚ (Option ℚ) (vec ℚ × Option ℚ) :=
  (explosion.init rat_lib 0 ⟨0, 0, 0⟩).spawn rat_lib 0 4 100 2 (1 / 100) 1 3

/-- Draws of `spawn()` with 5 particles and the given number of respawn waves. -/
def draws_with (respawn : ℕ) : spawn_draws ℚ :=
  { size := 5, velocity := 100, respawn := respawn, respawn_time := 1 / 100, life_time := 1,
    radius := 2, boost := 1 }

/-- A rocket that has passed its apex: inactive, at rest. -/
def landed : rocket ℚ (Option ℚ) :=
  { circle := ⟨⟨0, 0⟩, 6, none⟩, position := ⟨0, 0⟩, velocity := ⟨0, 0⟩, color_n := 0,
    active := false }

/-- A frame of 2 seconds read at clock time 2, with fixed draws. -/
def frame_A : frame_input ℚ :=
  { event := ⟨2, 2⟩, run_time := 2, interval := 1 / 10, dimension := ⟨1400, 950⟩, jitter := 0,
    launch := ⟨700, 10, -400⟩, rocket_color_n := 0, fresh := fun _ => ⟨0, 0, 0⟩,
    death := fun _ => draws_with 1, wave := fun _ => draws_with 1 }

/-- Frames of a fixed length `dt`, the clock reading advancing by `dt` per frame. -/
def steady (dt : ℚ) (k : ℕ) : event_info ℚ := ⟨dt, dt * (k + 1)⟩

section simulation

variable {α : Type} [LinearOrderedField α] {C S : Type}

/-- The simulation state at start-up: both pools empty, the launch clock started at `now`. -/
def main_state.init (now : α) : main_state α C S :=
  { rockets := [], explosions := [], spawn_clock := ⟨now⟩ }

/-- State before frame `k` of a run of consecutive `updating` calls, frame `j` being driven
by the input `inp j`. -/
def main_state.frames (lib : qlib α C S) (m : main_state α C S) (inp : ℕ → frame_input α) :
    ℕ → main_state α C S
  | 0 => m
  | k + 1 => (main_state.frames lib m inp k).updating lib (inp k)

/-- The ranges from which the argument-less `explosion::spawn()` draws. -/
def spawn_draws.in_range (d : spawn_draws α) : Prop :=
  5 ≤ d.size ∧ d.size ≤ 70 ∧ 100 ≤ d.velocity ∧ d.velocity ≤ 350 ∧
    1 ≤ d.respawn ∧ d.respawn ≤ 4 ∧
    5 / 1000 ≤ d.respawn_time ∧ d.respawn_time ≤ 3 / 100 ∧
    1 / 2 ≤ d.life_time ∧ d.life_time ≤ 13 / 10 ∧
    2 ≤ d.radius ∧ d.radius ≤ 6 ∧ 1 ≤ d.boost ∧ d.boost ≤ 3 / 2

/-- The ranges from which `rocket::randomize` draws, for a viewport of the given width. -/
def rocket_draws.in_range (d : rocket_draws α) (width : α) : Prop :=
  100 ≤ d.x ∧ d.x ≤ width - 100 ∧ -100 ≤ d.vx ∧ d.vx ≤ 100 ∧ -500 ≤ d.vy ∧ d.vy ≤ -300

/-- A frame input whose random draws lie in the ranges coded in the source, with a
non-negative frame delta and run time. -/
def frame_input.in_range (inp : frame_input α) : Prop :=
  0 ≤ inp.event.frame_time ∧ 0 ≤ inp.run_time ∧
    -(1 / 10) ≤ inp.jitter ∧ inp.jitter ≤ 1 / 10 ∧
    inp.launch.in_range inp.dimension.x ∧
    (∀ k, (inp.death k).in_range) ∧ (∀ j, (inp.wave j).in_range)

/-- The states the simulation can reach from its empty start-up state by frame steps whose
inputs are in range. -/
def main_state.reachable (lib : qlib α C S) (m : main_state α C S) : Prop :=
  ∃ (now : α) (inp : ℕ → frame_input α) (n : ℕ),
    (∀ k, (inp k).in_range) ∧ m = main_state.frames lib (main_state.init now) inp n

/-- Index of the slot that the explosion scan of `main_state::updating` gives to a dead
rocket: the first explosion that is not active, else the index of the slot appended. -/
def explode_slot : List (explosion α C S) → ℕ
  | [] => 0
  | e :: rest => if !e.active then 0 else explode_slot rest + 1

/-- The rocket pool of `main_state::updating` after its launch step and before the rocket
loop. -/
def main_state.after_launch (lib : qlib α C S) (m : main_state α C S)
    (inp : frame_input α) : List (rocket α C) :=
  if m.spawn_clock.has_elapsed inp.event.now inp.interval then
    main_state.launch lib m.rockets
      (lib.fmod (lib.fmod (inp.run_time / 20 + 1 / 2) 1 + inp.jitter) 1)
      inp.dimension.x inp.dimension.y inp.launch inp.rocket_color_n
  else m.rockets

/-- Every particle of the explosion has a life-time in the range drawn by `spawn()`. -/
def explosion.lives_ok (e : explosion α C S) : Prop :=
  ∀ p, p ∈ e.particles → 1 / 2 ≤ p.life_time ∧ p.life_time ≤ 13 / 10

/-- While respawn waves are pending, a particle of the latest wave is still active: it was
born when the respawn clock was last reset and outlives the respawn interval. -/
def explosion.pending_ok (e : explosion α C S) : Prop :=
  e.respawn ≠ 0 →
    ∃ p, p ∈ e.particles ∧ p.active = true ∧ p.clock.start = e.respawn_clock.start ∧
      e.respawn_time < p.life_time

/-- The two floating-point operations of `rocket::update` that round their result: the
double-precision product (`mul`), and the `+=` of a double-precision value into a
single-precision member of `qpl::vector2f` (`store`). -/
structure float_ops (α : Type) where
  mul : α → α → α
  store : α → α → α

/-- Exact arithmetic: no operation rounds. -/
def exact_ops : float_ops α :=
  { mul := fun a b => a * b, store := fun x y => x + y }

/-- Method `rocket::update` with the rounding of its floating-point operations: as
`rocket.update`, with every product and every `+=` into `position` and `velocity` taken
from `R`. -/
def rocket.update_rounded (R : float_ops α) (r : rocket α C) (event : event_info α) :
    rocket α C × Bool :=
  if !r.active then (r, false)
  else
    let r1 : rocket α C :=
      { r with
        position :=
          ⟨R.store r.position.x (R.mul r.velocity.x event.frame_time),
            R.store r.position.y (R.mul r.velocity.y event.frame_time)⟩ }
    let r2 : rocket α C :=
      { r1 with
        velocity :=
          ⟨R.store r1.velocity.x 0,
            R.store r1.velocity.y (R.mul info.gravity event.frame_time)⟩ }
    let f := 1 - clamp_0_1 (-r2.velocity.y / 300)
    let r3 := r2.set_radius (1 + 5 * f)
    let r4 : rocket α C := { r3 with circle := r3.circle.set_position r3.position }
    if 0 ≤ r4.velocity.y then ({ r4 with active := false }, true)
    else (r4, false)

end simulation

/-- The C library function `std::fmod`: the remainder of `a / b` with the quotient truncated
toward zero, so that the result has the sign of `a`. -/
def fmod_trunc {α : Type} [LinearOrderedField α] [FloorRing α] (a b : α) : α :=
  a - b * (if 0 ≤ a / b then (⌊a / b⌋ : α) else (⌈a / b⌉ : α))

/-- A frame of 0.01 s at run time 10 s and clock time 1, with a hue jitter of -0.05 and all
draws in range. -/
def frame_B : frame_input ℚ :=
  { event := ⟨1 / 100, 1⟩, run_time := 10, interval := 1 / 10, dimension := ⟨1400, 950⟩,
    jitter := -(1 / 20), launch := ⟨700, 10, -400⟩, rocket_color_n := 0,
    fresh := fun _ => ⟨0, 0, 0⟩, death := fun _ => draws_with 1, wave := fun _ => draws_with 1 }

/-- A simulation state with the Scenario A rocket in flight, no explosion, and the launch
clock just reset at time 2. -/
def pad_A : main_state ℚ (Option ℚ) (vec ℚ × Option ℚ) :=
  { rockets := [flight_A], explosions := [], spawn_clock := ⟨2⟩ }

/-- Frames of 2 seconds, frame `k` read at clock time `2 * (k + 1)`, with fixed draws in
range: every frame launches a rocket that dies in the same frame. -/
def long_frames (k : ℕ) : frame_input ℚ :=
  { frame_A with event := ⟨2, 2 * ((k : ℚ) + 1)⟩, run_time := 2 * ((k : ℚ) + 1) }

/-- Frames of 1 second, frame `k` read at clock time `k + 1`, launching a rocket with upward
speed 500 in even frames and 300 in odd frames, so that two rockets die in every even
frame from frame 2 on. -/
def parade (k : ℕ) : frame_input ℚ :=
  { event := ⟨1, (k : ℚ) + 1⟩, run_time := (k : ℚ) + 1, interval := 1 / 10,
    dimension := ⟨1400, 950⟩, jitter := 0,
    launch := ⟨700, 10, if k % 2 = 0 then -500 else -300⟩, rocket_color_n := 0,
    fresh := fun _ => ⟨0, 0, 0⟩, death := fun _ => draws_with 1,
    wave := fun _ => draws_with 1 }

/-- A particle born at time 0 with life-time 1, start colour 0 and end colour 100. -/
def spark : particle ℚ (Option ℚ) :=
  { circle := ⟨⟨0, 0⟩, 4, some 255⟩, position := ⟨0, 0⟩, velocity := ⟨100, 0⟩, life_time := 1,
    radius := 4, clock := ⟨0⟩, active := true, start_color := some 0, end_color := some 100 }

/-! ## Rocket: apex detection -/

section rocket_theorems

variable {α : Type} [LinearOrderedField α] {C : Type}

theorem rocket.update_inactive (r : rocket α C) (event : event_info α)
    (h : r.active = false) : r.update event = (r, false) := by
  simp [rocket.update, h]

theorem rocket.update_snd_iff (r : rocket α C) (event : event_info α) :
    (r.update event).2 = true ↔
      (r.active = true ∧ 0 ≤ r.velocity.y + info.gravity * event.frame_time) := by
  unfold rocket.update
  cases hact : r.active
  · simp
  · by_cases hv : 0 ≤ r.velocity.y + info.gravity * event.frame_time
    · simp [rocket.set_radius, vec.add, hv]
    · simp [rocket.set_radius, vec.add, hv]

theorem rocket.update_active_velocity (r : rocket α C) (event : event_info α)
    (h : r.active = true) :
    (r.update event).1.velocity.y = r.velocity.y + info.gravity * event.frame_time := by
  unfold rocket.update
  by_cases hv : 0 ≤ r.velocity.y + info.gravity * event.frame_time
  · simp [rocket.set_radius, vec.add, hv, h]
  · simp [rocket.set_radius, vec.add, hv, h]

theorem rocket.update_fst_active (r : rocket α C) (event : event_info α) :
    (r.update event).1.active = (r.active && !(r.update event).2) := by
  unfold rocket.update
  cases hact : r.active
  · simp [hact]
  · by_cases hv : 0 ≤ r.velocity.y + info.gravity * event.frame_time
    · simp [rocket.set_radius, vec.add, hv]
    · simp [rocket.set_radius, vec.add, hv]

theorem rocket.update_dying (r : rocket α C) (event : event_info α)
    (h : (r.update event).2 = true) :
    (r.update event).1.color_n = r.color_n ∧
      (r.update event).1.position = r.position.add (r.velocity.scale event.frame_time) := by
  obtain ⟨ha, hv⟩ := (rocket.update_snd_iff r event).mp h
  unfold rocket.update
  simp [rocket.set_radius, vec.add, hv, ha]

theorem rocket.run_active_iff (r : rocket α C) (ev : ℕ → event_info α) (k : ℕ) :
    ((r.run ev k).active = true ↔
        (r.active = true ∧
          ∀ j, j < k → r.velocity.y + info.gravity * total_time ev (j + 1) < 0)) ∧
      ((r.run ev k).active = true →
        (r.run ev k).velocity.y = r.velocity.y + info.gravity * total_time ev k) := by
  induction k with
  | zero => simp [rocket.run, total_time]
  | succ k ih =>
    obtain ⟨ih1, ih2⟩ := ih
    have hstep : (r.run ev (k + 1)).active = true ↔
        ((r.run ev k).active = true ∧
          r.velocity.y + info.gravity * total_time ev (k + 1) < 0) := by
      show ((r.run ev k).update (ev k)).1.active = true ↔ _
      rw [rocket.update_fst_active]
      constructor
      · intro h
        simp only [Bool.and_eq_true, Bool.not_eq_true', ← Bool.not_eq_true] at h
        refine ⟨h.1, ?_⟩
        have h2 := h.2
        rw [rocket.update_snd_iff] at h2
        have hv := ih2 h.1
        rw [hv] at h2
        simp only [total_time, mul_add]
        by_contra hc
        exact h2 ⟨h.1, by linarith [not_lt.mp hc]⟩
      · rintro ⟨ha, hlt⟩
        simp only [Bool.and_eq_true, Bool.not_eq_true', ← Bool.not_eq_true]
        refine ⟨ha, ?_⟩
        rw [rocket.update_snd_iff, ih2 ha]
        simp only [total_time, mul_add] at hlt
        rintro ⟨_, hge⟩
        linarith
    refine ⟨?_, ?_⟩
    · rw [hstep, ih1]
      constructor
      · rintro ⟨⟨ha, hall⟩, hlast⟩
        refine ⟨ha, fun j hj => ?_⟩
        rcases Nat.lt_succ_iff_lt_or_eq.mp hj with h | h
        · exact hall j h
        · subst h; exact hlast
      · rintro ⟨ha, hall⟩
        exact ⟨⟨ha, fun j hj => hall j (Nat.lt_succ_of_lt hj)⟩, hall k (Nat.lt_succ_self k)⟩
    · intro h
      have ha := (hstep.mp h).1
      show ((r.run ev k).update (ev k)).1.velocity.y = _
      rw [rocket.update_active_velocity _ _ ha, ih2 ha]
      simp only [total_time, mul_add]
      ring

theorem rocket.fired_iff (r : rocket α C) (ev : ℕ → event_info α) (k : ℕ) :
    r.fired ev k = true ↔
      (r.active = true ∧
        (∀ j, j < k → r.velocity.y + info.gravity * total_time ev (j + 1) < 0) ∧
        0 ≤ r.velocity.y + info.gravity * total_time ev (k + 1)) := by
  obtain ⟨h1, h2⟩ := rocket.run_active_iff r ev k
  unfold rocket.fired
  rw [rocket.update_snd_iff]
  constructor
  · rintro ⟨ha, hv⟩
    rw [h2 ha] at hv
    obtain ⟨h0, hall⟩ := h1.mp ha
    refine ⟨h0, hall, ?_⟩
    simp only [total_time, mul_add]
    linarith
  · rintro ⟨h0, hall, hv⟩
    have ha := h1.mpr ⟨h0, hall⟩
    refine ⟨ha, ?_⟩
    rw [h2 ha]
    simp only [total_time, mul_add] at hv
    linarith

theorem rocket.run_inactive_of_le (r : rocket α C) (ev : ℕ → event_info α) (j k : ℕ)
    (hjk : j ≤ k) (h : (r.run ev j).active = false) : (r.run ev k).active = false := by
  induction k with
  | zero =>
    have : j = 0 := Nat.le_zero.mp hjk
    subst this; exact h
  | succ k ih =>
    rcases Nat.lt_or_ge j (k + 1) with hlt | hge
    · have hk := ih (Nat.lt_succ_iff.mp hlt)
      show ((r.run ev k).update (ev k)).1.active = false
      rw [rocket.update_inactive _ _ hk]; exact hk
    · have : j = k + 1 := Nat.le_antisymm hjk hge
      subst this; exact h

theorem rocket.fired_lt_false (r : rocket α C) (ev : ℕ → event_info α) (j k : ℕ)
    (hjk : j < k) (h : r.fired ev j = true) : r.fired ev k = false := by
  have h1 : (r.run ev (j + 1)).active = false := by
    show ((r.run ev j).update (ev j)).1.active = false
    have h' : ((r.run ev j).update (ev j)).2 = true := h
    rw [rocket.update_fst_active, h']; simp
  have h2 := rocket.run_inactive_of_le r ev (j + 1) k hjk h1
  unfold rocket.fired
  rw [rocket.update_inactive _ _ h2]

theorem rocket.run_negative (r : rocket α C) (ev : ℕ → event_info α)
    (h : r.active = true → r.velocity.y < 0) (k : ℕ) :
    (r.run ev k).active = true → (r.run ev k).velocity.y < 0 := by
  induction k with
  | zero => exact h
  | succ k ih =>
    intro ha
    have ha' : ((r.run ev k).update (ev k)).1.active = true := ha
    rw [rocket.update_fst_active] at ha'
    simp only [Bool.and_eq_true, Bool.not_eq_true', ← Bool.not_eq_true] at ha'
    show ((r.run ev k).update (ev k)).1.velocity.y < 0
    rw [rocket.update_active_velocity _ _ ha'.1]
    have h2 := ha'.2
    rw [rocket.update_snd_iff] at h2
    by_contra hc
    exact h2 ⟨ha'.1, not_lt.mp hc⟩

end rocket_theorems

/-! ## Rocket: the update with rounding -/

section rounded_theorems

variable {α : Type} [LinearOrderedField α] {C : Type}

theorem rocket.update_rounded_exact (r : rocket α C) (event : event_info α) :
    r.update_rounded exact_ops event = r.update event := by
  unfold rocket.update_rounded rocket.update
  cases ha : r.active
  · simp
  · simp [exact_ops, vec.add, vec.scale]

end rounded_theorems

/-! ## Pool reuse: first free slot, else append -/

theorem scan_first_found {β : Type} (free : β → Bool) (f : β → β) :
    ∀ (xs : List β) (k : ℕ) (x : β), xs[k]? = some x → free x = true →
      (∀ j y, j < k → xs[j]? = some y → free y = false) →
      scan_first free f xs = (xs.set k (f x), true) := by
  intro xs
  induction xs with
  | nil => intro k x h; simp at h
  | cons a rest ih =>
    intro k x hk hx hbefore
    cases k with
    | zero =>
      simp only [List.getElem?_cons_zero, Option.some.injEq] at hk
      subst hk
      simp [scan_first, hx]
    | succ k =>
      have ha : free a = false := hbefore 0 a (Nat.succ_pos k) (by simp)
      simp only [List.getElem?_cons_succ] at hk
      have hrest := ih k x hk hx (fun j y hj hy => hbefore (j + 1) y (Nat.succ_lt_succ hj)
        (by simpa using hy))
      simp [scan_first, ha, hrest]

theorem scan_first_none {β : Type} (free : β → Bool) (f : β → β) :
    ∀ xs : List β, (∀ x, x ∈ xs → free x = false) → scan_first free f xs = (xs, false) := by
  intro xs
  induction xs with
  | nil => intro _; rfl
  | cons a rest ih =>
    intro h
    have ha : free a = false := h a (List.mem_cons_self a rest)
    have hrest := ih (fun x hx => h x (List.mem_cons_of_mem a hx))
    simp [scan_first, ha, hrest]

theorem scan_first_count {β : Type} (free : β → Bool) (f : β → β)
    (hf : ∀ x, free x = true → free (f x) = false) :
    ∀ xs : List β,
      ((scan_first free f xs).2 = true →
        (scan_first free f xs).1.countP (fun x => !free x) =
          xs.countP (fun x => !free x) + 1) ∧
      ((scan_first free f xs).2 = false → (scan_first free f xs).1 = xs) := by
  intro xs
  induction xs with
  | nil => simp [scan_first]
  | cons a rest ih =>
    cases ha : free a
    · simp only [scan_first, ha, Bool.false_eq_true, if_false]
      refine ⟨fun h => ?_, fun h => ?_⟩
      · simp [List.countP_cons, ha, ih.1 h]
      · simp [ih.2 h]
    · simp [scan_first, ha, List.countP_cons, hf a ha]

theorem launch_scan_eq {α C S : Type} [LinearOrderedField α] (lib : qlib α C S)
    (color_n width height : α) (d : rocket_draws α) (rs : List (rocket α C)) :
    launch_scan lib color_n width height d rs =
      scan_first (fun i => !i.active)
        (fun i => rocket.randomize lib i color_n width height d) rs := by
  induction rs with
  | nil => rfl
  | cons i rest ih => simp only [launch_scan, scan_first, ih]

theorem explode_scan_eq {α C S : Type} [LinearOrderedField α] (lib : qlib α C S)
    (i : rocket α C) (now : α) (d : spawn_draws α) (es : List (explosion α C S)) :
    explode_scan lib i now d es =
      scan_first (fun e => !e.active) (fun e => (e.clear lib now).ignite lib i now d) es := by
  induction es with
  | nil => rfl
  | cons e rest ih => simp only [explode_scan, scan_first, ih]

/-! ## Explosion: spawn, clear, update -/

theorem spawn_loop_append {α C : Type} (body : ℕ → particle α C → particle α C) (d : particle α C)
    (n : ℕ) : ∀ pre : List (particle α C),
      spawn_loop body pre.length n (pre ++ List.replicate n d) =
        pre ++ (List.range n).map (fun k => body (pre.length + k) d) := by
  induction n with
  | zero => intro pre; simp [spawn_loop]
  | succ n ih =>
    intro pre
    have hmod : (pre ++ List.replicate (n + 1) d).modify (body pre.length) pre.length =
        (pre ++ [body pre.length d]) ++ List.replicate n d := by
      rw [List.modify_eq_take_cons_drop (by simp)]
      simp [List.replicate_succ, List.getElem_append_right]
    have hlen : (pre ++ [body pre.length d]).length = pre.length + 1 := by simp
    rw [spawn_loop, hmod, ← hlen, ih (pre ++ [body pre.length d]), hlen,
      List.range_succ_eq_map]
    simp [List.map_map, Function.comp_def, Nat.add_assoc, Nat.add_comm 1]

theorem any_active_iff {α C : Type} (ps : List (particle α C)) :
    any_active ps = true ↔ ∃ p, p ∈ ps ∧ p.active = true := by
  induction ps with
  | nil => simp [any_active]
  | cons i rest ih =>
    unfold any_active
    cases hi : i.active
    · simp [ih, hi]
    · simp [hi]

section explosion_theorems

variable {α : Type} [LinearOrderedField α] {C S : Type}

theorem explosion.spawn_particles (lib : qlib α C S) (e : explosion α C S) (now : α)
    (n : ℕ) (v : α) (respawn : ℕ) (rt lt rad : α) :
    (e.spawn lib now n v respawn rt lt rad).particles =
      e.particles ++ (List.range n).map (fun k =>
        explosion.spawn_body lib (e.spawn lib now n v respawn rt lt rad) e.particles.length
          n v lt rad (e.particles.length + k) (particle.init lib now)) := by
  unfold explosion.spawn
  cases hu : lib.is_unset e.start_color
  · simp only [hu, Bool.false_eq_true, if_false]
    rw [spawn_loop_append]
    rfl
  · simp only [hu, if_true]
    rw [spawn_loop_append]
    rfl

theorem explosion.spawn_fields (lib : qlib α C S) (e : explosion α C S) (now : α)
    (n : ℕ) (v : α) (respawn : ℕ) (rt lt rad : α) :
    (e.spawn lib now n v respawn rt lt rad).respawn = respawn ∧
      (e.spawn lib now n v respawn rt lt rad).respawn_time = rt ∧
      (e.spawn lib now n v respawn rt lt rad).position = e.position ∧
      (e.spawn lib now n v respawn rt lt rad).color_n = e.color_n ∧
      (e.spawn lib now n v respawn rt lt rad).respawn_clock = e.respawn_clock := by
  unfold explosion.spawn
  cases hu : lib.is_unset e.start_color <;> simp [hu]

theorem explosion.spawn_length (lib : qlib α C S) (e : explosion α C S) (now : α)
    (n : ℕ) (v : α) (respawn : ℕ) (rt lt rad : α) :
    (e.spawn lib now n v respawn rt lt rad).particles.length = e.particles.length + n := by
  rw [explosion.spawn_particles]; simp

theorem explosion.spawn_new_particle (lib : qlib α C S) (e : explosion α C S) (now : α)
    (n : ℕ) (v : α) (respawn : ℕ) (rt lt rad : α) (k : ℕ) (hk : k < n) :
    (e.spawn lib now n v respawn rt lt rad).particles[e.particles.length + k]? =
      some (explosion.spawn_body lib (e.spawn lib now n v respawn rt lt rad)
        e.particles.length n v lt rad (e.particles.length + k) (particle.init lib now)) := by
  rw [explosion.spawn_particles, List.getElem?_append_right (Nat.le_add_right _ _)]
  simp [hk]

theorem explosion.spawn_body_fields (lib : qlib α C S) (e : explosion α C S) (s n : ℕ)
    (v lt rad : α) (k : ℕ) (p : particle α C) :
    (explosion.spawn_body lib e s n v lt rad (s + k) p).position = e.position ∧
      (explosion.spawn_body lib e s n v lt rad (s + k) p).velocity =
        ⟨lib.cos ((k : α) / (n : α) * 2 * lib.pi) * v,
          lib.sin ((k : α) / (n : α) * 2 * lib.pi) * v⟩ ∧
      (explosion.spawn_body lib e s n v lt rad (s + k) p).life_time = lt ∧
      (explosion.spawn_body lib e s n v lt rad (s + k) p).radius = rad ∧
      (explosion.spawn_body lib e s n v lt rad (s + k) p).active = p.active := by
  simp [explosion.spawn_body, vec.scale, particle.set_radius, particle.update_radius]

theorem explosion.update_guard (e : explosion α C S) (event : event_info α) :
    (if e.respawn ≠ 0 then e.respawn_clock.has_elapsed_reset event.now e.respawn_time
      else (e.respawn_clock, false)) =
      (if e.wave_due event = true then (e.respawn_clock.reset event.now, true)
      else (e.respawn_clock, false)) := by
  unfold explosion.wave_due clock.has_elapsed_reset
  by_cases h0 : e.respawn = 0 <;> simp [h0]

theorem explosion.update_wave (lib : qlib α C S) (e : explosion α C S)
    (event : event_info α) (d : spawn_draws α) (h : e.wave_due event = true) :
    (e.update lib event d).respawn = (d.respawn + (2 ^ 64 - 1)) % 2 ^ 64 ∧
      (e.update lib event d).particles.length = e.particles.length + d.size ∧
      (e.update lib event d).respawn_time = d.respawn_time ∧
      (e.update lib event d).respawn_clock = ⟨event.now⟩ := by
  unfold explosion.update
  rw [explosion.update_guard]
  simp only [h, if_true]
  simp [explosion.spawn0, explosion.spawn_fields, explosion.spawn_length, clock.reset]

theorem explosion.update_no_wave (lib : qlib α C S) (e : explosion α C S)
    (event : event_info α) (d : spawn_draws α) (h : e.wave_due event = false) :
    (e.update lib event d).respawn = e.respawn ∧
      (e.update lib event d).particles.length = e.particles.length ∧
      (e.update lib event d).respawn_time = e.respawn_time ∧
      (e.update lib event d).respawn_clock = e.respawn_clock := by
  unfold explosion.update
  rw [explosion.update_guard]
  simp [h]

theorem explosion.wave_due_of_respawn_zero (e : explosion α C S) (event : event_info α)
    (h : e.respawn = 0) : e.wave_due event = false := by
  simp [explosion.wave_due, h]

theorem explosion.wave_due_iff (e : explosion α C S) (event : event_info α) :
    e.wave_due event = true ↔
      (e.respawn ≠ 0 ∧ e.respawn_time ≤ event.now - e.respawn_clock.start) := by
  simp [explosion.wave_due, clock.has_elapsed, clock.elapsed_f]

theorem explosion.run_respawn_zero (lib : qlib α C S) (e : explosion α C S)
    (ev : ℕ → event_info α) (ds : ℕ → spawn_draws α) (h : e.respawn = 0) (k : ℕ) :
    (e.run lib ev ds k).respawn = 0 ∧
      (e.run lib ev ds k).particles.length = e.particles.length ∧
      e.waves lib ev ds k = 0 := by
  induction k with
  | zero => exact ⟨h, rfl, rfl⟩
  | succ k ih =>
    obtain ⟨h1, h2, h3⟩ := ih
    have hd := explosion.wave_due_of_respawn_zero (e.run lib ev ds k) (ev k) h1
    obtain ⟨g1, g2, _, _⟩ := explosion.update_no_wave lib (e.run lib ev ds k) (ev k) (ds k) hd
    refine ⟨?_, ?_, ?_⟩
    · show ((e.run lib ev ds k).update lib (ev k) (ds k)).respawn = 0
      rw [g1, h1]
    · show ((e.run lib ev ds k).update lib (ev k) (ds k)).particles.length = _
      rw [g2, h2]
    · show e.waves lib ev ds k + (if (e.run lib ev ds k).wave_due (ev k) = true then 1 else 0)
        = 0
      rw [h3, hd]; simp

theorem explosion.spawn_empty_members (lib : qlib α C S) (e : explosion α C S) (now : α)
    (n : ℕ) (v : α) (respawn : ℕ) (rt lt rad : α) (he : e.particles = []) :
    ∀ p, p ∈ (e.spawn lib now n v respawn rt lt rad).particles →
      p.position = e.position ∧ p.active = true := by
  intro p hp
  rw [explosion.spawn_particles] at hp
  simp only [he, List.nil_append, List.length_nil] at hp
  obtain ⟨k, _, rfl⟩ := List.mem_map.mp hp
  obtain ⟨h1, _, _, _, h5⟩ := explosion.spawn_body_fields lib
    (e.spawn lib now n v respawn rt lt rad) 0 n v lt rad k (particle.init lib now)
  exact ⟨h1.trans (explosion.spawn_fields lib e now n v respawn rt lt rad).2.2.1, h5⟩

theorem explosion.ignite_fields (lib : qlib α C S) (e : explosion α C S) (i : rocket α C)
    (now : α) (d : spawn_draws α) (he : e.particles = []) :
    (e.ignite lib i now d).color_n = i.color_n ∧
      (e.ignite lib i now d).position = i.position ∧
      (e.ignite lib i now d).particles.length = d.size ∧
      (∀ p, p ∈ (e.ignite lib i now d).particles →
        p.position = i.position ∧ p.active = true) := by
  have hE : (explosion.set_position lib { e with color_n := i.color_n } i.position).particles
      = [] := he
  refine ⟨?_, ?_, ?_, ?_⟩
  · exact (explosion.spawn_fields lib _ _ _ _ _ _ _ _).2.2.2.1
  · exact (explosion.spawn_fields lib _ _ _ _ _ _ _ _).2.2.1
  · show (explosion.spawn lib _ _ _ _ _ _ _ _).particles.length = d.size
    rw [explosion.spawn_length, hE]
    simp
  · exact explosion.spawn_empty_members lib _ _ _ _ _ _ _ _ hE

end explosion_theorems

/-! ## Particle: fading, and frozen entities -/

section particle_theorems

variable {α : Type} [LinearOrderedField α] {C S : Type}

theorem particle.update_noop (lib : qlib α C S) (p : particle α C) (event : event_info α)
    (h : p.active = false) : particle.update lib p event = p := by
  simp [particle.update, h]

theorem particle.update_alive (lib : qlib α C S) (p : particle α C) (event : event_info α)
    (hact : p.active = true) (ht : p.clock.elapsed_f event.now < p.life_time) :
    particle.update lib p event =
      { p with
        position := p.position.add (p.velocity.scale event.frame_time)
        velocity := p.velocity.add ⟨0, info.gravity * event.frame_time⟩
        circle :=
          { position := p.position.add (p.velocity.scale event.frame_time)
            radius := p.radius * (1 - p.clock.elapsed_f event.now / p.life_time)
            color := lib.interpolated p.start_color p.end_color
              (1 - p.clock.elapsed_f event.now / p.life_time) } } := by
  have hne : ¬ p.life_time ≤ p.clock.elapsed_f event.now := not_le.mpr ht
  simp [particle.update, hact, clock.has_elapsed, hne, particle.update_color,
    particle.update_radius, circle.set_color, circle.set_radius, circle.set_position]

theorem particle.update_expired (lib : qlib α C S) (p : particle α C) (event : event_info α)
    (hact : p.active = true) (ht : p.life_time ≤ p.clock.elapsed_f event.now) :
    (particle.update lib p event).active = false := by
  simp [particle.update, hact, clock.has_elapsed, ht]

theorem particle.update_life_time (lib : qlib α C S) (p : particle α C)
    (event : event_info α) :
    (particle.update lib p event).life_time = p.life_time ∧
      (particle.update lib p event).clock = p.clock := by
  unfold particle.update
  cases ha : p.active
  · simp
  · by_cases ht : p.life_time ≤ p.clock.elapsed_f event.now
    · simp [clock.has_elapsed, ht]
    · simp [clock.has_elapsed, ht, particle.update_color, particle.update_radius]

end particle_theorems

/-! ## Simulation: one frame step -/

theorem scan_first_length {β : Type} (free : β → Bool) (f : β → β) :
    ∀ xs : List β, (scan_first free f xs).1.length = xs.length := by
  intro xs
  induction xs with
  | nil => rfl
  | cons a rest ih =>
    cases ha : free a
    · simp [scan_first, ha, ih]
    · simp [scan_first, ha]

theorem scan_first_forall {β : Type} (free : β → Bool) (f : β → β) (P : β → Prop) :
    ∀ xs : List β, (∀ x, x ∈ xs → P x) → (∀ x, x ∈ xs → free x = true → P (f x)) →
      ∀ y, y ∈ (scan_first free f xs).1 → P y := by
  intro xs
  induction xs with
  | nil => intro _ _ y hy; cases hy
  | cons a rest ih =>
    intro hP hf y hy
    cases ha : free a
    · simp only [scan_first, ha, Bool.false_eq_true, if_false, List.mem_cons] at hy
      rcases hy with h | h
      · rw [h]; exact hP a (List.mem_cons_self a rest)
      · exact ih (fun x hx => hP x (List.mem_cons_of_mem a hx))
          (fun x hx => hf x (List.mem_cons_of_mem a hx)) y h
    · simp only [scan_first, ha, if_true, List.mem_cons] at hy
      rcases hy with h | h
      · rw [h]; exact hf a (List.mem_cons_self a rest) ha
      · exact hP y (List.mem_cons_of_mem a h)

theorem explode_slot_inactive {α C S : Type} :
    ∀ (es : List (explosion α C S)) (e : explosion α C S),
      es[explode_slot es]? = some e → e.active = false := by
  intro es
  induction es with
  | nil => intro e h; simp at h
  | cons a rest ih =>
    intro e h
    cases ha : a.active
    · simp only [explode_slot, ha, Bool.not_false, if_true, List.getElem?_cons_zero,
        Option.some.injEq] at h
      rw [← h]; exact ha
    · simp only [explode_slot, ha, Bool.not_true, Bool.false_eq_true, if_false,
        List.getElem?_cons_succ] at h
      exact ih e h

theorem explode_slot_le {α C S : Type} : ∀ es : List (explosion α C S), explode_slot es ≤ es.length := by
  intro es
  induction es with
  | nil => exact Nat.le_refl _
  | cons a rest ih =>
    cases ha : a.active
    · simp [explode_slot, ha]
    · simp [explode_slot, ha, ih]

section simulation_theorems

variable {α : Type} [LinearOrderedField α] {C S : Type}

theorem rocket.update_color_n (r : rocket α C) (event : event_info α) :
    (r.update event).1.color_n = r.color_n := by
  unfold rocket.update
  cases ha : r.active
  · simp
  · by_cases hv : 0 ≤ r.velocity.y + info.gravity * event.frame_time
    · simp [rocket.set_radius, vec.add, hv]
    · simp [rocket.set_radius, vec.add, hv]

theorem explosion.spawn_body_clock (lib : qlib α C S) (e : explosion α C S) (s n : ℕ)
    (v lt rad : α) (i : ℕ) (p : particle α C) :
    (explosion.spawn_body lib e s n v lt rad i p).clock = p.clock ∧
      (explosion.spawn_body lib e s n v lt rad i p).life_time = lt ∧
      (explosion.spawn_body lib e s n v lt rad i p).active = p.active := by
  simp [explosion.spawn_body, particle.set_radius, particle.update_radius]

theorem explosion.spawn_mem (lib : qlib α C S) (e : explosion α C S) (now : α)
    (n : ℕ) (v : α) (respawn : ℕ) (rt lt rad : α) (p : particle α C)
    (hp : p ∈ (e.spawn lib now n v respawn rt lt rad).particles) :
    p ∈ e.particles ∨ (p.life_time = lt ∧ p.active = true ∧ p.clock = ⟨now⟩) := by
  rw [explosion.spawn_particles, List.mem_append] at hp
  rcases hp with h | h
  · exact Or.inl h
  · obtain ⟨k, _, rfl⟩ := List.mem_map.mp h
    obtain ⟨h1, h2, h3⟩ := explosion.spawn_body_clock lib
      (e.spawn lib now n v respawn rt lt rad) e.particles.length n v lt rad
      (e.particles.length + k) (particle.init lib now)
    exact Or.inr ⟨h2, h3, h1⟩

theorem explosion.spawn_mem_old (lib : qlib α C S) (e : explosion α C S) (now : α)
    (n : ℕ) (v : α) (respawn : ℕ) (rt lt rad : α) (p : particle α C)
    (hp : p ∈ e.particles) : p ∈ (e.spawn lib now n v respawn rt lt rad).particles := by
  rw [explosion.spawn_particles]
  exact List.mem_append_left _ hp

theorem explosion.spawn_mem_new (lib : qlib α C S) (e : explosion α C S) (now : α)
    (n : ℕ) (v : α) (respawn : ℕ) (rt lt rad : α) (hn : 0 < n) :
    ∃ p, p ∈ (e.spawn lib now n v respawn rt lt rad).particles ∧
      p.life_time = lt ∧ p.active = true ∧ p.clock = ⟨now⟩ := by
  obtain ⟨h1, h2, h3⟩ := explosion.spawn_body_clock lib
    (e.spawn lib now n v respawn rt lt rad) e.particles.length n v lt rad
    (e.particles.length + 0) (particle.init lib now)
  refine ⟨_, ?_, h2, h3, h1⟩
  rw [explosion.spawn_particles]
  exact List.mem_append_right _ (List.mem_map.mpr ⟨0, List.mem_range.mpr hn, rfl⟩)

theorem explosion.spawn_new_members (lib : qlib α C S) (e : explosion α C S) (now : α)
    (n : ℕ) (v : α) (respawn : ℕ) (rt lt rad : α) :
    ∀ p, p ∈ (e.spawn lib now n v respawn rt lt rad).particles.drop e.particles.length →
      p.life_time = lt ∧ p.radius = rad ∧ p.active = true := by
  intro p hp
  rw [explosion.spawn_particles, List.drop_left] at hp
  obtain ⟨k, _, rfl⟩ := List.mem_map.mp hp
  obtain ⟨_, _, h3, h4, h5⟩ :=
    explosion.spawn_body_fields lib (e.spawn lib now n v respawn rt lt rad)
      e.particles.length n v lt rad k (particle.init lib now)
  exact ⟨h3, h4, h5⟩

theorem explosion.update_particles_eq (lib : qlib α C S) (e : explosion α C S)
    (event : event_info α) (d : spawn_draws α) :
    (e.update lib event d).particles =
      (if e.wave_due event = true then
        (explosion.spawn0 lib { e with respawn_clock := e.respawn_clock.reset event.now }
          event.now d).particles
      else e.particles).map (fun p => particle.update lib p event) := by
  unfold explosion.update
  rw [explosion.update_guard]
  cases h : e.wave_due event <;> simp

theorem explosion.update_mem (lib : qlib α C S) (e : explosion α C S)
    (event : event_info α) (d : spawn_draws α) (q : particle α C)
    (hq : q ∈ (e.update lib event d).particles) :
    ∃ p, q = particle.update lib p event ∧
      (p ∈ e.particles ∨
        (e.wave_due event = true ∧ p.life_time = d.life_time ∧ p.active = true ∧
          p.clock = ⟨event.now⟩)) := by
  rw [explosion.update_particles_eq] at hq
  obtain ⟨p, hp, rfl⟩ := List.mem_map.mp hq
  refine ⟨p, rfl, ?_⟩
  cases h : e.wave_due event
  · rw [h] at hp
    exact Or.inl hp
  · rw [h] at hp
    rcases explosion.spawn_mem lib _ _ _ _ _ _ _ _ p hp with h1 | h1
    · exact Or.inl h1
    · exact Or.inr ⟨rfl, h1⟩

theorem explosion.update_mem_old (lib : qlib α C S) (e : explosion α C S)
    (event : event_info α) (d : spawn_draws α) (p : particle α C) (hp : p ∈ e.particles) :
    particle.update lib p event ∈ (e.update lib event d).particles := by
  rw [explosion.update_particles_eq]
  refine List.mem_map.mpr ⟨p, ?_, rfl⟩
  cases h : e.wave_due event
  · simpa using hp
  · simp only [if_true]
    exact explosion.spawn_mem_old lib _ _ _ _ _ _ _ _ p hp

theorem explosion.update_mem_new (lib : qlib α C S) (e : explosion α C S)
    (event : event_info α) (d : spawn_draws α) (hdue : e.wave_due event = true)
    (hn : 0 < d.size) :
    ∃ p, particle.update lib p event ∈ (e.update lib event d).particles ∧
      p.life_time = d.life_time ∧ p.active = true ∧ p.clock = ⟨event.now⟩ := by
  obtain ⟨p, hp, h1, h2, h3⟩ := explosion.spawn_mem_new lib
    { e with respawn_clock := e.respawn_clock.reset event.now } event.now d.size
    (d.velocity : α) d.respawn d.respawn_time d.life_time
    (if d.size < 10 then d.radius * d.boost else d.radius) hn
  refine ⟨p, ?_, h1, h2, h3⟩
  rw [explosion.update_particles_eq]
  refine List.mem_map.mpr ⟨p, ?_, rfl⟩
  simp only [hdue, if_true]
  exact hp

theorem particle.update_alive_fields (lib : qlib α C S) (p : particle α C)
    (event : event_info α) (hact : p.active = true)
    (ht : p.clock.elapsed_f event.now < p.life_time) :
    (particle.update lib p event).active = true ∧
      (particle.update lib p event).clock = p.clock ∧
      (particle.update lib p event).life_time = p.life_time := by
  rw [particle.update_alive lib p event hact ht]
  exact ⟨hact, rfl, rfl⟩

theorem explosion.ignite_lives_ok (lib : qlib α C S) (e : explosion α C S) (i : rocket α C)
    (now : α) (d : spawn_draws α) (he : e.particles = []) (hd : d.in_range) :
    (e.ignite lib i now d).lives_ok := by
  intro p hp
  have hE : (explosion.set_position lib { e with color_n := i.color_n } i.position).particles
      = [] := he
  rcases explosion.spawn_mem lib _ _ _ _ _ _ _ _ p hp with h | h
  · rw [hE] at h; cases h
  · rw [h.1]
    exact ⟨hd.2.2.2.2.2.2.2.2.1, hd.2.2.2.2.2.2.2.2.2.1⟩

theorem explosion.update_lives_ok (lib : qlib α C S) (e : explosion α C S)
    (event : event_info α) (d : spawn_draws α) (hd : d.in_range) (he : e.lives_ok) :
    (e.update lib event d).lives_ok := by
  intro q hq
  obtain ⟨p, rfl, hp⟩ := explosion.update_mem lib e event d q hq
  rw [(particle.update_life_time lib p event).1]
  rcases hp with h | h
  · exact he p h
  · rw [h.2.1]
    exact ⟨hd.2.2.2.2.2.2.2.2.1, hd.2.2.2.2.2.2.2.2.2.1⟩

theorem spawn_draws.interval_lt_life (d : spawn_draws α) (hd : d.in_range) :
    0 < d.size ∧ 0 < d.life_time ∧ d.respawn_time < d.life_time ∧ 0 < d.respawn_time := by
  obtain ⟨h1, _, _, _, _, _, h7, h8, h9, _⟩ := hd
  refine ⟨by omega, ?_, ?_, ?_⟩
  · linarith
  · have : (3 : α) / 100 < 1 / 2 := by norm_num
    linarith
  · have : (0 : α) < 5 / 1000 := by norm_num
    linarith

theorem explosion.ignite_pending_ok (lib : qlib α C S) (e : explosion α C S)
    (i : rocket α C) (now : α) (d : spawn_draws α) (hc : e.respawn_clock = ⟨now⟩)
    (hd : d.in_range) : (e.ignite lib i now d).pending_ok := by
  intro _
  obtain ⟨hn, _, hlt, _⟩ := spawn_draws.interval_lt_life d hd
  obtain ⟨p, hp, h1, h2, h3⟩ := explosion.spawn_mem_new lib
    (explosion.set_position lib { e with color_n := i.color_n } i.position) now d.size
    (d.velocity : α) d.respawn d.respawn_time d.life_time
    (if d.size < 10 then d.radius * d.boost else d.radius) hn
  refine ⟨p, hp, h2, ?_, ?_⟩
  · have hclk : (e.ignite lib i now d).respawn_clock = e.respawn_clock :=
      (explosion.spawn_fields lib _ _ _ _ _ _ _ _).2.2.2.2
    rw [hclk, hc, h3]
  · have hrt : (e.ignite lib i now d).respawn_time = d.respawn_time :=
      (explosion.spawn_fields lib _ _ _ _ _ _ _ _).2.1
    rw [hrt, h1]
    exact hlt

theorem explosion.update_pending_ok (lib : qlib α C S) (e : explosion α C S)
    (event : event_info α) (d : spawn_draws α) (hd : d.in_range) (he : e.pending_ok) :
    (e.update lib event d).pending_ok := by
  intro hne
  obtain ⟨hn, hlife, hlt, _⟩ := spawn_draws.interval_lt_life d hd
  cases hdue : e.wave_due event
  · obtain ⟨g1, _, g3, g4⟩ := explosion.update_no_wave lib e event d hdue
    rw [g1] at hne
    obtain ⟨p, hp, hact, hclk, hlt'⟩ := he hne
    have hnot : ¬ e.respawn_time ≤ event.now - e.respawn_clock.start := by
      intro hle
      have := (explosion.wave_due_iff e event).mpr ⟨hne, hle⟩
      rw [hdue] at this
      cases this
    have hage : p.clock.elapsed_f event.now < p.life_time := by
      rw [clock.elapsed_f, hclk]
      exact lt_trans (not_le.mp hnot) hlt'
    obtain ⟨a1, a2, a3⟩ := particle.update_alive_fields lib p event hact hage
    refine ⟨particle.update lib p event, explosion.update_mem_old lib e event d p hp, a1,
      ?_, ?_⟩
    · rw [a2, hclk, g4]
    · rw [a3, g3]
      exact hlt'
  · obtain ⟨_, _, g3, g4⟩ := explosion.update_wave lib e event d hdue
    obtain ⟨p, hp, h1, h2, h3⟩ := explosion.update_mem_new lib e event d hdue hn
    have hage : p.clock.elapsed_f event.now < p.life_time := by
      rw [clock.elapsed_f, h3, h1]
      simpa using hlife
    obtain ⟨a1, a2, a3⟩ := particle.update_alive_fields lib p event h2 hage
    refine ⟨particle.update lib p event, hp, a1, ?_, ?_⟩
    · rw [a2, h3, g4]
    · rw [a3, g3, h1]
      exact hlt

theorem explosion.inactive_respawn_zero (e : explosion α C S) (he : e.pending_ok)
    (hina : e.active = false) : e.respawn = 0 := by
  by_contra hne
  obtain ⟨p, hp, hact, _, _⟩ := he hne
  have : e.active = true := (any_active_iff e.particles).mpr ⟨p, hp, hact⟩
  rw [hina] at this
  cases this

theorem main_state.launch_length (lib : qlib α C S) (rs : List (rocket α C))
    (color_n width height : α) (d : rocket_draws α) (junk : α) :
    rs.length ≤ (main_state.launch lib rs color_n width height d junk).length := by
  unfold main_state.launch
  rw [launch_scan_eq]
  cases hf : (scan_first (fun i : rocket α C => !i.active)
    (fun i => rocket.randomize lib i color_n width height d) rs).2
  · simp [hf, scan_first_length]
  · simp [hf, scan_first_length]

theorem main_state.explode_length (lib : qlib α C S) (es : List (explosion α C S))
    (i : rocket α C) (now : α) (d : spawn_draws α) (u : explosion_uninit α) :
    es.length ≤ (main_state.explode lib es i now d u).length := by
  unfold main_state.explode
  rw [explode_scan_eq]
  cases hf : (scan_first (fun e : explosion α C S => !e.active)
    (fun e => (e.clear lib now).ignite lib i now d) es).2
  · simp [hf, scan_first_length]
  · simp [hf, scan_first_length]

theorem rockets_loop_fst (lib : qlib α C S) (inp : frame_input α) :
    ∀ (rs : List (rocket α C)) (k : ℕ) (es : List (explosion α C S)),
      (rockets_loop lib inp k rs es).1 = rs.map (fun r => (r.update inp.event).1) := by
  intro rs
  induction rs with
  | nil => intro k es; rfl
  | cons i rest ih =>
    intro k es
    simp only [rockets_loop, List.map_cons, ih]

theorem rockets_loop_snd_length (lib : qlib α C S) (inp : frame_input α) :
    ∀ (rs : List (rocket α C)) (k : ℕ) (es : List (explosion α C S)),
      es.length ≤ (rockets_loop lib inp k rs es).2.length := by
  intro rs
  induction rs with
  | nil => intro k es; exact Nat.le_refl _
  | cons i rest ih =>
    intro k es
    simp only [rockets_loop]
    refine Nat.le_trans ?_ (ih (k + 1) _)
    cases hq : (i.update inp.event).2
    · simp
    · simp only [if_true]
      exact main_state.explode_length lib es _ _ _ _

theorem update_explosions_length (lib : qlib α C S) (inp : frame_input α) :
    ∀ (es : List (explosion α C S)) (j : ℕ),
      (update_explosions lib inp j es).length = es.length := by
  intro es
  induction es with
  | nil => intro j; rfl
  | cons e rest ih => intro j; simp [update_explosions, ih]

theorem update_explosions_getElem (lib : qlib α C S) (inp : frame_input α) :
    ∀ (es : List (explosion α C S)) (j n : ℕ),
      (update_explosions lib inp j es)[n]? =
        (es[n]?).map (fun e => e.update lib inp.event (inp.wave (j + n))) := by
  intro es
  induction es with
  | nil => intro j n; simp [update_explosions]
  | cons e rest ih =>
    intro j n
    cases n with
    | zero => simp [update_explosions]
    | succ n =>
      simp only [update_explosions, List.getElem?_cons_succ, ih]
      have : j + 1 + n = j + (n + 1) := by omega
      rw [this]

theorem main_state.updating_rockets (lib : qlib α C S) (m : main_state α C S)
    (inp : frame_input α) :
    (m.updating lib inp).rockets =
      (if m.spawn_clock.has_elapsed inp.event.now inp.interval = true then
        main_state.launch lib m.rockets
          (lib.fmod (lib.fmod (inp.run_time / 20 + 1 / 2) 1 + inp.jitter) 1)
          inp.dimension.x inp.dimension.y inp.launch inp.rocket_color_n
      else m.rockets).map (fun r => (r.update inp.event).1) := by
  unfold main_state.updating clock.has_elapsed_reset
  cases h : m.spawn_clock.has_elapsed inp.event.now inp.interval
  · simp [rockets_loop_fst]
  · simp [rockets_loop_fst]

theorem main_state.updating_explosions (lib : qlib α C S) (m : main_state α C S)
    (inp : frame_input α) :
    (m.updating lib inp).explosions =
      update_explosions lib inp 0
        (rockets_loop lib inp 0
          (if m.spawn_clock.has_elapsed inp.event.now inp.interval = true then
            main_state.launch lib m.rockets
              (lib.fmod (lib.fmod (inp.run_time / 20 + 1 / 2) 1 + inp.jitter) 1)
              inp.dimension.x inp.dimension.y inp.launch inp.rocket_color_n
          else m.rockets) m.explosions).2 := by
  unfold main_state.updating clock.has_elapsed_reset
  cases h : m.spawn_clock.has_elapsed inp.event.now inp.interval
  · simp
  · simp

theorem main_state.explode_forall (lib : qlib α C S) (P : explosion α C S → Prop)
    (es : List (explosion α C S)) (i : rocket α C) (now : α) (d : spawn_draws α)
    (u : explosion_uninit α)
    (hbirth : ∀ e : explosion α C S, e.particles = [] → e.respawn_clock = ⟨now⟩ →
      P (e.ignite lib i now d))
    (hes : ∀ e, e ∈ es → P e) :
    ∀ e, e ∈ main_state.explode lib es i now d u → P e := by
  have h1 := scan_first_forall (fun e : explosion α C S => !e.active)
    (fun e => (e.clear lib now).ignite lib i now d) P es hes
    (fun x _ _ => hbirth (x.clear lib now) rfl rfl)
  intro e he
  unfold main_state.explode at he
  rw [explode_scan_eq] at he
  cases hf : (scan_first (fun e : explosion α C S => !e.active)
    (fun e => (e.clear lib now).ignite lib i now d) es).2
  · simp only [hf, Bool.not_false, if_true, List.mem_append, List.mem_singleton] at he
    rcases he with h | h
    · exact h1 e h
    · rw [h]; exact hbirth _ rfl rfl
  · simp only [hf, Bool.not_true, Bool.false_eq_true, if_false] at he
    exact h1 e he

theorem rockets_loop_forall (lib : qlib α C S) (inp : frame_input α)
    (P : explosion α C S → Prop)
    (hbirth : ∀ (k : ℕ) (e : explosion α C S) (i : rocket α C), e.particles = [] →
      e.respawn_clock = ⟨inp.event.now⟩ → P (e.ignite lib i inp.event.now (inp.death k))) :
    ∀ (rs : List (rocket α C)) (k : ℕ) (es : List (explosion α C S)),
      (∀ e, e ∈ es → P e) → ∀ e, e ∈ (rockets_loop lib inp k rs es).2 → P e := by
  intro rs
  induction rs with
  | nil => intro k es hes e he; exact hes e he
  | cons i rest ih =>
    intro k es hes
    simp only [rockets_loop]
    apply ih
    cases hq : (i.update inp.event).2
    · simpa using hes
    · simp only [if_true]
      exact main_state.explode_forall lib P es _ _ _ _ (fun e => hbirth k e _) hes

theorem update_explosions_forall (lib : qlib α C S) (inp : frame_input α)
    (P : explosion α C S → Prop)
    (hupd : ∀ (j : ℕ) (e : explosion α C S), P e → P (e.update lib inp.event (inp.wave j))) :
    ∀ (es : List (explosion α C S)) (j : ℕ),
      (∀ e, e ∈ es → P e) → ∀ e, e ∈ update_explosions lib inp j es → P e := by
  intro es
  induction es with
  | nil => intro j _ e he; cases he
  | cons a rest ih =>
    intro j hes e he
    simp only [update_explosions, List.mem_cons] at he
    rcases he with h | h
    · rw [h]; exact hupd j a (hes a (List.mem_cons_self a rest))
    · exact ih (j + 1) (fun x hx => hes x (List.mem_cons_of_mem a hx)) e h

theorem main_state.updating_explosions_eq (lib : qlib α C S) (m : main_state α C S)
    (inp : frame_input α) :
    (m.updating lib inp).explosions =
      update_explosions lib inp 0
        (rockets_loop lib inp 0 (m.after_launch lib inp) m.explosions).2 :=
  main_state.updating_explosions lib m inp

theorem main_state.reachable_forall (lib : qlib α C S) (P : explosion α C S → Prop)
    (hbirth : ∀ (now : α) (d : spawn_draws α) (e : explosion α C S) (i : rocket α C),
      d.in_range → e.particles = [] → e.respawn_clock = ⟨now⟩ → P (e.ignite lib i now d))
    (hupd : ∀ (event : event_info α) (d : spawn_draws α) (e : explosion α C S),
      d.in_range → P e → P (e.update lib event d))
    (m : main_state α C S) (hm : m.reachable lib) : ∀ e, e ∈ m.explosions → P e := by
  obtain ⟨now, inp, n, hin, rfl⟩ := hm
  induction n with
  | zero => intro e he; cases he
  | succ n ih =>
    intro e he
    have he' : e ∈ ((main_state.frames lib (main_state.init now) inp n).updating lib
        (inp n)).explosions := he
    rw [main_state.updating_explosions_eq] at he'
    obtain ⟨_, _, _, _, _, hdeath, hwave⟩ := hin n
    refine update_explosions_forall lib (inp n) P (fun j x hx => hupd _ _ x (hwave j) hx)
      _ 0 ?_ e he'
    exact rockets_loop_forall lib (inp n) P
      (fun k x i hx hc => hbirth _ _ x i (hdeath k) hx hc) _ 0 _ ih

theorem main_state.explode_cons_inactive (lib : qlib α C S) (a : explosion α C S)
    (rest : List (explosion α C S)) (i : rocket α C) (now : α) (d : spawn_draws α)
    (u : explosion_uninit α) (ha : a.active = false) :
    main_state.explode lib (a :: rest) i now d u =
      (a.clear lib now).ignite lib i now d :: rest := by
  simp [main_state.explode, explode_scan, ha]

theorem main_state.explode_cons_active (lib : qlib α C S) (a : explosion α C S)
    (rest : List (explosion α C S)) (i : rocket α C) (now : α) (d : spawn_draws α)
    (u : explosion_uninit α) (ha : a.active = true) :
    main_state.explode lib (a :: rest) i now d u =
      a :: main_state.explode lib rest i now d u := by
  unfold main_state.explode
  cases hf : (explode_scan lib i now d rest).2 <;> simp [explode_scan, ha, hf]

theorem explosion.ignite_active (lib : qlib α C S) (e : explosion α C S) (i : rocket α C)
    (now : α) (d : spawn_draws α) (he : e.particles = []) (hn : 0 < d.size) :
    (e.ignite lib i now d).active = true := by
  obtain ⟨_, _, hlen, hall⟩ := explosion.ignite_fields lib e i now d he
  cases hps : (e.ignite lib i now d).particles with
  | nil => rw [hps] at hlen; simp at hlen; omega
  | cons p rest =>
    exact (any_active_iff _).mpr ⟨p, by rw [hps]; exact List.mem_cons_self p rest,
      (hall p (by rw [hps]; exact List.mem_cons_self p rest)).2⟩

theorem main_state.explode_at_slot (lib : qlib α C S) (i : rocket α C) (now : α)
    (d : spawn_draws α) (u : explosion_uninit α) :
    ∀ es : List (explosion α C S),
      (∃ e0 : explosion α C S, e0.particles = [] ∧ e0.respawn_clock = ⟨now⟩ ∧
        (main_state.explode lib es i now d u)[explode_slot es]? =
          some (e0.ignite lib i now d)) ∧
      (∀ s, s ≠ explode_slot es → (main_state.explode lib es i now d u)[s]? = es[s]?) := by
  intro es
  induction es with
  | nil =>
    refine ⟨⟨(explosion.init lib now u).set_texture lib, rfl, rfl, rfl⟩, fun s hs => ?_⟩
    have hs' : s ≠ 0 := hs
    obtain ⟨t, rfl⟩ := Nat.exists_eq_succ_of_ne_zero hs'
    simp [main_state.explode, explode_scan]
  | cons a rest ih =>
    cases ha : a.active
    · rw [main_state.explode_cons_inactive lib a rest i now d u ha]
      have hslot : explode_slot (a :: rest) = 0 := by simp [explode_slot, ha]
      rw [hslot]
      refine ⟨⟨a.clear lib now, rfl, rfl, by simp⟩, fun s hs => ?_⟩
      obtain ⟨t, rfl⟩ := Nat.exists_eq_succ_of_ne_zero hs
      simp
    · rw [main_state.explode_cons_active lib a rest i now d u ha]
      have hslot : explode_slot (a :: rest) = explode_slot rest + 1 := by
        simp [explode_slot, ha]
      rw [hslot]
      obtain ⟨⟨e0, h1, h2, h3⟩, hother⟩ := ih
      refine ⟨⟨e0, h1, h2, by simpa using h3⟩, fun s hs => ?_⟩
      cases s with
      | zero => simp
      | succ t =>
        simp only [List.getElem?_cons_succ]
        exact hother t (fun h => hs (by rw [h]))

theorem main_state.explode_keeps_active (lib : qlib α C S) (es : List (explosion α C S))
    (i : rocket α C) (now : α) (d : spawn_draws α) (u : explosion_uninit α) (s : ℕ)
    (x : explosion α C S) (hx : es[s]? = some x) (hact : x.active = true) :
    (main_state.explode lib es i now d u)[s]? = some x := by
  have hne : s ≠ explode_slot es := by
    intro h
    rw [h] at hx
    have := explode_slot_inactive es x hx
    rw [hact] at this
    cases this
  rw [(main_state.explode_at_slot lib i now d u es).2 s hne]
  exact hx

theorem rockets_loop_append (lib : qlib α C S) (inp : frame_input α) :
    ∀ (pre post : List (rocket α C)) (k : ℕ) (es : List (explosion α C S)),
      rockets_loop lib inp k (pre ++ post) es =
        ((rockets_loop lib inp k pre es).1 ++
            (rockets_loop lib inp (k + pre.length) post (rockets_loop lib inp k pre es).2).1,
          (rockets_loop lib inp (k + pre.length) post
            (rockets_loop lib inp k pre es).2).2) := by
  intro pre
  induction pre with
  | nil => intro post k es; simp [rockets_loop]
  | cons i rest ih =>
    intro post k es
    have hk : k + (i :: rest).length = k + 1 + rest.length := by
      simp only [List.length_cons]; omega
    rw [hk]
    show rockets_loop lib inp k (i :: (rest ++ post)) es = _
    simp only [rockets_loop, ih, List.cons_append]

theorem rockets_loop_step (lib : qlib α C S) (inp : frame_input α)
    (pre : List (rocket α C)) (r : rocket α C) (k : ℕ) (es : List (explosion α C S)) :
    (rockets_loop lib inp k (pre ++ [r]) es).2 =
      if (r.update inp.event).2 = true then
        main_state.explode lib (rockets_loop lib inp k pre es).2 (r.update inp.event).1
          inp.event.now (inp.death (k + pre.length)) (inp.fresh (k + pre.length))
      else (rockets_loop lib inp k pre es).2 := by
  rw [rockets_loop_append]
  simp only [rockets_loop]

theorem rockets_loop_keeps_active (lib : qlib α C S) (inp : frame_input α) :
    ∀ (rs : List (rocket α C)) (k : ℕ) (es : List (explosion α C S)) (s : ℕ)
      (x : explosion α C S), es[s]? = some x → x.active = true →
      (rockets_loop lib inp k rs es).2[s]? = some x := by
  intro rs
  induction rs with
  | nil => intro k es s x hx _; exact hx
  | cons i rest ih =>
    intro k es s x hx hact
    simp only [rockets_loop]
    apply ih (k + 1) _ s x _ hact
    cases hq : (i.update inp.event).2
    · simpa using hx
    · simp only [if_true]
      exact main_state.explode_keeps_active lib es _ _ _ _ s x hx hact

end simulation_theorems

section first_update

variable {α : Type} [LinearOrderedField α] {C S : Type}

theorem explosion.spawn_sprite_velocity (lib : qlib α C S) (e : explosion α C S) (now : α)
    (n : ℕ) (v : α) (respawn : ℕ) (rt lt rad : α) :
    (e.spawn lib now n v respawn rt lt rad).sprite_velocity = e.sprite_velocity := by
  unfold explosion.spawn
  cases hu : lib.is_unset e.start_color <;> simp [hu]

theorem explosion.update_sprite_velocity (lib : qlib α C S) (e : explosion α C S)
    (event : event_info α) (d : spawn_draws α) :
    (e.update lib event d).sprite_velocity =
      ⟨e.sprite_velocity.x, e.sprite_velocity.y + info.gravity * event.frame_time⟩ := by
  unfold explosion.update
  rw [explosion.update_guard]
  cases h : e.wave_due event
  · simp
  · simp [explosion.spawn0, explosion.spawn_sprite_velocity]

theorem explosion.ignite_state (lib : qlib α C S) (e : explosion α C S) (i : rocket α C)
    (now : α) (d : spawn_draws α) (he : e.particles = []) :
    (e.ignite lib i now d).sprite_velocity = e.sprite_velocity ∧
      (e.ignite lib i now d).respawn_clock = e.respawn_clock ∧
      (e.ignite lib i now d).respawn_time = d.respawn_time ∧
      (e.ignite lib i now d).respawn = d.respawn ∧
      (∀ p, p ∈ (e.ignite lib i now d).particles →
        p.life_time = d.life_time ∧ p.active = true ∧ p.clock = ⟨now⟩) := by
  have hE : (explosion.set_position lib { e with color_n := i.color_n } i.position).particles
      = [] := he
  refine ⟨explosion.spawn_sprite_velocity lib _ _ _ _ _ _ _ _,
    (explosion.spawn_fields lib _ _ _ _ _ _ _ _).2.2.2.2,
    (explosion.spawn_fields lib _ _ _ _ _ _ _ _).2.1,
    (explosion.spawn_fields lib _ _ _ _ _ _ _ _).1, fun p hp => ?_⟩
  rcases explosion.spawn_mem lib _ _ _ _ _ _ _ _ p hp with h | h
  · rw [hE] at h; cases h
  · exact h

theorem explosion.first_update (lib : qlib α C S) (e : explosion α C S) (i : rocket α C)
    (event : event_info α) (d w : spawn_draws α) (hd : d.in_range) (he : e.particles = [])
    (hc : e.respawn_clock = ⟨event.now⟩) :
    (e.ignite lib i event.now d).wave_due event = false ∧
      ((e.ignite lib i event.now d).update lib event w).particles =
        (e.ignite lib i event.now d).particles.map (fun p => particle.update lib p event) ∧
      (∀ p, p ∈ (e.ignite lib i event.now d).particles →
        (particle.update lib p event).active = true ∧
          (particle.update lib p event).position =
            p.position.add (p.velocity.scale event.frame_time) ∧
          (particle.update lib p event).velocity =
            p.velocity.add ⟨0, info.gravity * event.frame_time⟩) := by
  obtain ⟨_, h2, h3, _, h5⟩ := explosion.ignite_state lib e i event.now d he
  obtain ⟨_, hlife, _, hrt⟩ := spawn_draws.interval_lt_life d hd
  have hdue : (e.ignite lib i event.now d).wave_due event = false := by
    rw [← Bool.not_eq_true, explosion.wave_due_iff, h2, h3, hc]
    rintro ⟨_, hle⟩
    simp only [sub_self] at hle
    exact absurd hle (not_le.mpr hrt)
  refine ⟨hdue, ?_, fun p hp => ?_⟩
  · rw [explosion.update_particles_eq, hdue]
    simp
  · obtain ⟨a1, a2, a3⟩ := h5 p hp
    have hage : p.clock.elapsed_f event.now < p.life_time := by
      rw [clock.elapsed_f, a3, a1]
      simpa using hlife
    rw [particle.update_alive lib p event a2 hage]
    exact ⟨a2, rfl, rfl⟩

end first_update

theorem frame_A_in_range : frame_A.in_range := by
  refine ⟨by norm_num [frame_A], by norm_num [frame_A], by norm_num [frame_A],
    by norm_num [frame_A], ?_, ?_, ?_⟩
  · norm_num [frame_A, rocket_draws.in_range]
  · intro k; norm_num [frame_A, draws_with, spawn_draws.in_range]
  · intro j; norm_num [frame_A, draws_with, spawn_draws.in_range]

theorem long_frames_in_range (k : ℕ) : (long_frames k).in_range := by
  have hk : (0 : ℚ) ≤ (k : ℚ) := Nat.cast_nonneg k
  refine ⟨by norm_num [long_frames], ?_, by norm_num [long_frames, frame_A],
    by norm_num [long_frames, frame_A], ?_, ?_, ?_⟩
  · show (0 : ℚ) ≤ 2 * ((k : ℚ) + 1)
    linarith
  · norm_num [long_frames, frame_A, rocket_draws.in_range]
  · intro j; norm_num [long_frames, frame_A, draws_with, spawn_draws.in_range]
  · intro j; norm_num [long_frames, frame_A, draws_with, spawn_draws.in_range]

theorem parade_deaths_in_range (k j : ℕ) : ((parade k).death j).in_range := by
  norm_num [parade, draws_with, spawn_draws.in_range]

theorem flight_A_dies : (flight_A.update frame_A.event).2 = true := by
  rw [rocket.update_snd_iff]
  norm_num [flight_A, frame_A, info.gravity]


theorem first_frame_A_explosions :
    ((main_state.init 0 : main_state ℚ (Option ℚ) (vec ℚ × Option ℚ)).updating rat_lib
      frame_A).explosions.length = 1 := by
  rw [main_state.updating_explosions_eq, update_explosions_length]
  have hel : (main_state.init 0 :
      main_state ℚ (Option ℚ) (vec ℚ × Option ℚ)).spawn_clock.has_elapsed
      frame_A.event.now frame_A.interval = true := by
    norm_num [main_state.init, clock.has_elapsed, clock.elapsed_f, frame_A]
  have hl : (main_state.init 0 : main_state ℚ (Option ℚ) (vec ℚ × Option ℚ)).after_launch
      rat_lib frame_A =
      [rocket.randomize rat_lib (rocket.init rat_lib frame_A.rocket_color_n)
        (rat_lib.fmod (rat_lib.fmod (frame_A.run_time / 20 + 1 / 2) 1 + frame_A.jitter) 1)
        frame_A.dimension.x frame_A.dimension.y frame_A.launch] := by
    simp only [main_state.after_launch, hel, if_true]
    rfl
  have hdie : ((rocket.randomize rat_lib (rocket.init rat_lib frame_A.rocket_color_n)
      (rat_lib.fmod (rat_lib.fmod (frame_A.run_time / 20 + 1 / 2) 1 + frame_A.jitter) 1)
      frame_A.dimension.x frame_A.dimension.y frame_A.launch).update frame_A.event).2
      = true := by
    rw [rocket.update_snd_iff]
    norm_num [rocket.randomize, frame_A, info.gravity]
  rw [hl]
  simp only [rockets_loop, hdie, if_true]
  rfl

/-- Claim C1, as stated, fails on the default-constructed rocket (active, velocity zero):
its first `update` returns true although `velocity.y` was not negative before the call, so
that frame is not one where `velocity.y` goes from negative to `≥ 0`. -/
theorem C1_counterexample :
    (rocket.init rat_lib 0).fired (steady (1 / 60)) 0 = true ∧
      ¬ (((rocket.init rat_lib 0).run (steady (1 / 60)) 0).velocity.y < 0 ∧
          0 ≤ ((rocket.init rat_lib 0).run (steady (1 / 60)) 1).velocity.y) := by
  refine ⟨?_, ?_⟩
  · rw [rocket.fired_iff]
    simp [rocket.init, rocket.set_radius, info.gravity, total_time, steady]
  · simp [rocket.run, rocket.init, rocket.set_radius]

/-- Claim C1 (amended). For every rocket state and frame delta, `update` returns true iff
the rocket was active before the call and its vertical velocity after adding `gravity * dt`
is `≥ 0`, and then the rocket is inactive afterwards. Over any run of `update` calls with no
`randomize` in between, true is returned at most once and never while the rocket is
inactive; and for a rocket whose `velocity.y` is negative if it is active at the start (as
after `randomize`), `update` returns true on exactly the frame where `velocity.y` goes from
negative to `≥ 0`. -/
theorem C1_rocket_update_apex {α C : Type} [LinearOrderedField α] (r : rocket α C)
    (ev : ℕ → event_info α) :
    (∀ event : event_info α,
        ((r.update event).2 = true ↔
          (r.active = true ∧ 0 ≤ r.velocity.y + info.gravity * event.frame_time)) ∧
        ((r.update event).2 = true → (r.update event).1.active = false)) ∧
      (∀ j k, r.fired ev j = true → r.fired ev k = true → j = k) ∧
      (∀ k, (r.run ev k).active = false → r.fired ev k = false) ∧
      ((r.active = true → r.velocity.y < 0) →
        ∀ k, (r.fired ev k = true ↔
          ((r.run ev k).velocity.y < 0 ∧ 0 ≤ (r.run ev (k + 1)).velocity.y))) := by
  refine ⟨fun event => ⟨rocket.update_snd_iff r event, fun h => ?_⟩, ?_, ?_, ?_⟩
  · rw [rocket.update_fst_active, h]; simp
  · intro j k hj hk
    rcases Nat.lt_trichotomy j k with h | h | h
    · rw [rocket.fired_lt_false r ev j k h hj] at hk; cases hk
    · exact h
    · rw [rocket.fired_lt_false r ev k j h hk] at hj; cases hj
  · intro k h
    unfold rocket.fired
    rw [rocket.update_inactive _ _ h]
  · intro hneg k
    have hk := rocket.run_negative r ev hneg k
    show ((r.run ev k).update (ev k)).2 = true ↔
      ((r.run ev k).velocity.y < 0 ∧ 0 ≤ ((r.run ev k).update (ev k)).1.velocity.y)
    rw [rocket.update_snd_iff]
    cases ha : (r.run ev k).active
    · rw [rocket.update_inactive _ _ ha]
      simp only [Bool.false_eq_true, false_and, false_iff, not_and, not_le]
      exact fun h => h
    · rw [rocket.update_active_velocity _ _ ha]
      simp only [true_and]
      exact ⟨fun h => ⟨hk ha, h⟩, fun h => h.2⟩

/-- Witness for C1: a rocket launched at `velocity.y = -400`, frames of one second: the
second `update` (cumulative time 2) is the one that returns true. -/
theorem C1_rocket_update_apex_witness :
    (flight_A.active = true →
        flight_A.velocity.y < 0) ∧
      (flight_A.fired (steady 1) 1
          = true ↔
        ((flight_A.run
              (steady 1) 1).velocity.y < 0 ∧
          0 ≤ (flight_A.run
              (steady 1) 2).velocity.y)) :=
  ⟨fun _ => by norm_num [flight_A],
    (C1_rocket_update_apex _ (steady 1)).2.2.2 (fun _ => by norm_num [flight_A]) 1⟩

theorem scenario_C_state :
    scenario_C.respawn = 2 ∧ scenario_C.respawn_time = 1 / 100 ∧
      scenario_C.respawn_clock = ⟨0⟩ ∧ scenario_C.particles.length = 4 := by
  refine ⟨?_, ?_, ?_, ?_⟩
  · exact (explosion.spawn_fields _ _ _ _ _ _ _ _ _).1
  · exact (explosion.spawn_fields _ _ _ _ _ _ _ _ _).2.1
  · rw [scenario_C, (explosion.spawn_fields _ _ _ _ _ _ _ _ _).2.2.2.2]
    simp [explosion.init, explosion.clear, clock.reset]
  · rw [scenario_C, explosion.spawn_length]
    simp [explosion.init, explosion.clear]

/-- Claim C3 fails on the code. Scenario C leaves 2 waves pending at an interval of 0.01 s and
is then updated every 0.02 s, so that the respawn clock has elapsed at every update. When
each `spawn()` called by `update` draws a wave count of 1, exactly one additional wave is
ever triggered and the pending count is 0 from the first update on; when each draws a wave
count of 4, every update triggers a wave and the pending count is 3 after each of them. In
neither run are there exactly 2 additional waves. -/
theorem C3_respawn_count_overwritten :
    (scenario_C.respawn = 2 ∧ scenario_C.respawn_time = 1 / 100) ∧
      (∀ k, scenario_C.waves rat_lib (steady (1 / 50)) (fun _ => draws_with 1) (k + 1) = 1 ∧
        (scenario_C.run rat_lib (steady (1 / 50)) (fun _ => draws_with 1) (k + 1)).respawn
          = 0) ∧
      (∀ k, scenario_C.waves rat_lib (steady (1 / 50)) (fun _ => draws_with 4) (k + 1)
          = k + 1 ∧
        (scenario_C.run rat_lib (steady (1 / 50)) (fun _ => draws_with 4) (k + 1)).respawn
          = 3) := by
  obtain ⟨h1, h2, h3, _⟩ := scenario_C_state
  have hdue0 : scenario_C.wave_due (steady (1 / 50) 0) = true := by
    rw [explosion.wave_due_iff, h1, h2, h3]
    norm_num [steady]
  refine ⟨⟨h1, h2⟩, ?_, ?_⟩
  · intro k
    induction k with
    | zero =>
      refine ⟨?_, ?_⟩
      · show 0 + (if scenario_C.wave_due (steady (1 / 50) 0) = true then 1 else 0) = 1
        rw [hdue0]; rfl
      · show (scenario_C.update rat_lib (steady (1 / 50) 0) (draws_with 1)).respawn = 0
        rw [(explosion.update_wave rat_lib _ _ _ hdue0).1]
        norm_num [draws_with]
    | succ k ih =>
      obtain ⟨ih1, ih2⟩ := ih
      have hd := explosion.wave_due_of_respawn_zero _ (steady (1 / 50) (k + 1)) ih2
      refine ⟨?_, ?_⟩
      · show scenario_C.waves rat_lib (steady (1 / 50)) (fun _ => draws_with 1) (k + 1) +
            (if (scenario_C.run rat_lib (steady (1 / 50)) (fun _ => draws_with 1)
              (k + 1)).wave_due (steady (1 / 50) (k + 1)) = true then 1 else 0) = 1
        rw [ih1, hd]; rfl
      · show ((scenario_C.run rat_lib (steady (1 / 50)) (fun _ => draws_with 1)
            (k + 1)).update rat_lib (steady (1 / 50) (k + 1)) (draws_with 1)).respawn = 0
        rw [(explosion.update_no_wave rat_lib _ _ _ hd).1, ih2]
  · have key : ∀ k,
        scenario_C.waves rat_lib (steady (1 / 50)) (fun _ => draws_with 4) (k + 1) = k + 1 ∧
        (scenario_C.run rat_lib (steady (1 / 50)) (fun _ => draws_with 4) (k + 1)).respawn
          = 3 ∧
        (scenario_C.run rat_lib (steady (1 / 50)) (fun _ => draws_with 4)
          (k + 1)).respawn_time = 1 / 100 ∧
        (scenario_C.run rat_lib (steady (1 / 50)) (fun _ => draws_with 4)
          (k + 1)).respawn_clock = ⟨1 / 50 * ((k : ℚ) + 1)⟩ := by
      intro k
      induction k with
      | zero =>
        obtain ⟨g1, _, g3, g4⟩ :=
          explosion.update_wave rat_lib scenario_C (steady (1 / 50) 0) (draws_with 4) hdue0
        refine ⟨?_, ?_, ?_, ?_⟩
        · show 0 + (if scenario_C.wave_due (steady (1 / 50) 0) = true then 1 else 0) = 0 + 1
          rw [hdue0]; rfl
        · show (scenario_C.update rat_lib (steady (1 / 50) 0) (draws_with 4)).respawn = 3
          rw [g1]; norm_num [draws_with]
        · show (scenario_C.update rat_lib (steady (1 / 50) 0) (draws_with 4)).respawn_time
            = 1 / 100
          rw [g3]; rfl
        · show (scenario_C.update rat_lib (steady (1 / 50) 0) (draws_with 4)).respawn_clock
            = _
          rw [g4]; simp [steady]
      | succ k ih =>
        obtain ⟨ih1, ih2, ih3, ih4⟩ := ih
        have hd : (scenario_C.run rat_lib (steady (1 / 50)) (fun _ => draws_with 4)
            (k + 1)).wave_due (steady (1 / 50) (k + 1)) = true := by
          rw [explosion.wave_due_iff, ih2, ih3, ih4]
          refine ⟨by norm_num, ?_⟩
          simp only [steady]
          push_cast
          linarith
        obtain ⟨g1, _, g3, g4⟩ := explosion.update_wave rat_lib _ _ (draws_with 4) hd
        refine ⟨?_, ?_, ?_, ?_⟩
        · show scenario_C.waves rat_lib (steady (1 / 50)) (fun _ => draws_with 4) (k + 1) +
              (if (scenario_C.run rat_lib (steady (1 / 50)) (fun _ => draws_with 4)
                (k + 1)).wave_due (steady (1 / 50) (k + 1)) = true then 1 else 0)
              = k + 1 + 1
          rw [ih1, hd]; rfl
        · show ((scenario_C.run rat_lib (steady (1 / 50)) (fun _ => draws_with 4)
              (k + 1)).update rat_lib (steady (1 / 50) (k + 1)) (draws_with 4)).respawn = 3
          rw [g1]; norm_num [draws_with]
        · show ((scenario_C.run rat_lib (steady (1 / 50)) (fun _ => draws_with 4)
              (k + 1)).update rat_lib (steady (1 / 50) (k + 1)) (draws_with 4)).respawn_time
              = 1 / 100
          rw [g3]; rfl
        · show ((scenario_C.run rat_lib (steady (1 / 50)) (fun _ => draws_with 4)
              (k + 1)).update rat_lib (steady (1 / 50) (k + 1)) (draws_with 4)).respawn_clock
              = _
          rw [g4]; simp [steady]
    exact fun k => ⟨(key k).1, (key k).2.1⟩

/-- Claim C4, as stated, fails: clearing the Scenario C explosion, which has 2 respawn waves
pending, leaves the pending count at 2, and an `update` one second later, with no `spawn`
in between, triggers a spawn wave of 5 particles. -/
theorem C4_counterexample :
    (scenario_C.clear rat_lib 1).respawn = 2 ∧
      (scenario_C.clear rat_lib 1).wave_due ⟨1, 2⟩ = true ∧
      ((scenario_C.clear rat_lib 1).update rat_lib ⟨1, 2⟩ (draws_with 1)).particles.length
        = 5 := by
  obtain ⟨h1, h2, _, _⟩ := scenario_C_state
  have hr : (scenario_C.clear rat_lib 1).respawn = 2 := h1
  have hd : (scenario_C.clear rat_lib 1).wave_due ⟨1, 2⟩ = true := by
    rw [explosion.wave_due_iff, hr]
    have ht : (scenario_C.clear rat_lib 1).respawn_time = 1 / 100 := h2
    rw [ht]
    norm_num [explosion.clear, clock.reset]
  refine ⟨hr, hd, ?_⟩
  rw [(explosion.update_wave rat_lib _ _ _ hd).2.1]
  simp [explosion.clear, draws_with]

/-- Claim C4 (amended). `clear()` leaves the pending respawn count unchanged. Hence, if the
count was zero before `clear()`, it is zero afterwards and stays zero through any number of
`update` calls with no `spawn` in between, none of which triggers a spawn wave: the pool
stays empty. -/
theorem C4_clear_keeps_respawn {α C S : Type} [LinearOrderedField α] (lib : qlib α C S)
    (e : explosion α C S) (now : α) :
    (e.clear lib now).respawn = e.respawn ∧
      (e.respawn = 0 →
        ∀ (ev : ℕ → event_info α) (ds : ℕ → spawn_draws α) (k : ℕ),
          ((e.clear lib now).run lib ev ds k).respawn = 0 ∧
            ((e.clear lib now).run lib ev ds k).wave_due (ev k) = false ∧
            (e.clear lib now).waves lib ev ds k = 0 ∧
            ((e.clear lib now).run lib ev ds k).particles = []) := by
  refine ⟨rfl, fun h ev ds k => ?_⟩
  have hc : (e.clear lib now).respawn = 0 := h
  obtain ⟨h1, h2, h3⟩ := explosion.run_respawn_zero lib (e.clear lib now) ev ds hc k
  refine ⟨h1, explosion.wave_due_of_respawn_zero _ _ h1, h3, ?_⟩
  have hl : ((e.clear lib now).run lib ev ds k).particles.length = 0 := by
    rw [h2]; rfl
  exact List.length_eq_zero.mp hl

/-- Witness for C4: a freshly constructed explosion whose pending count is 0, cleared at
time 1 and then updated twice. -/
theorem C4_clear_keeps_respawn_witness :
    (explosion.init rat_lib 0 ⟨0, 1 / 100, 0⟩).respawn = 0 ∧
      (((explosion.init rat_lib 0 ⟨0, 1 / 100, 0⟩).clear rat_lib 1).run rat_lib (steady 1)
          (fun _ => draws_with 1) 2).respawn = 0 ∧
      ((explosion.init rat_lib 0 ⟨0, 1 / 100, 0⟩).clear rat_lib 1).waves rat_lib (steady 1)
          (fun _ => draws_with 1) 2 = 0 :=
  ⟨rfl,
    ((C4_clear_keeps_respawn rat_lib (explosion.init rat_lib 0 ⟨0, 1 / 100, 0⟩) 1).2 rfl
      (steady 1) (fun _ => draws_with 1) 2).1,
    ((C4_clear_keeps_respawn rat_lib (explosion.init rat_lib 0 ⟨0, 1 / 100, 0⟩) 1).2 rfl
      (steady 1) (fun _ => draws_with 1) 2).2.2.1⟩

/-- Claim C5. After `clear()` the particle pool is empty, so no particle is active and
`active()` is false; start colour and end colour are both unset; the velocity of the
secondary marker is (0, 0); the position and the hue index are unchanged. -/
theorem C5_clear_resets {α C S : Type} [LinearOrderedField α] (lib : qlib α C S)
    (e : explosion α C S) (now : α) :
    (e.clear lib now).particles = [] ∧
      ((e.clear lib now).particles.filter (fun p => p.active)).length = 0 ∧
      (e.clear lib now).particle_size = 0 ∧
      (e.clear lib now).active = false ∧
      (e.clear lib now).start_color = lib.unset ∧
      (e.clear lib now).end_color = lib.unset ∧
      (e.clear lib now).sprite_velocity = ⟨0, 0⟩ ∧
      (e.clear lib now).position = e.position ∧
      (e.clear lib now).color_n = e.color_n :=
  ⟨rfl, rfl, rfl, rfl, rfl, rfl, rfl, rfl, rfl⟩

/-- Claim C6 (radial fan), over the reals with the library's `pi`, `cos` and `sin` the real
ones. After `spawn(n, v, ...)` with `n ≥ 1` on a pool of size `s`, the particle at index
`s + k` (`k < n`) sits at the explosion's position and has velocity
`v * (cos (2 π k / n), sin (2 π k / n))`, of magnitude `|v|`; the angle `2 π k / n` equals
`k * (2 π / n)` and lies in `[0, 2 π)`. For `n = 4`, `v = 100` the new velocities are
(100, 0), (0, 100), (-100, 0), (0, -100). -/
theorem C6_radial_fan {C S : Type} (lib : qlib ℝ C S) (hpi : lib.pi = Real.pi)
    (hcos : lib.cos = Real.cos) (hsin : lib.sin = Real.sin) (e : explosion ℝ C S) (now : ℝ)
    (n : ℕ) (v : ℝ) (respawn : ℕ) (rt lt rad : ℝ) (hn : 1 ≤ n) :
    (∀ k, k < n →
        ∃ p, (e.spawn lib now n v respawn rt lt rad).particles[e.particles.length + k]?
            = some p ∧
          p.position = e.position ∧
          p.velocity =
            ⟨v * Real.cos (2 * Real.pi * k / n), v * Real.sin (2 * Real.pi * k / n)⟩ ∧
          Real.sqrt (p.velocity.x ^ 2 + p.velocity.y ^ 2) = |v| ∧
          2 * Real.pi * k / n = k * (2 * Real.pi / n) ∧
          0 ≤ 2 * Real.pi * k / n ∧ 2 * Real.pi * k / n < 2 * Real.pi) ∧
      (n = 4 → v = 100 →
        ((e.spawn lib now n v respawn rt lt rad).particles.drop e.particles.length).map
            (fun p => p.velocity) =
          [⟨100, 0⟩, ⟨0, 100⟩, ⟨-100, 0⟩, ⟨0, -100⟩]) := by
  have hn0 : (0 : ℝ) < (n : ℝ) := by exact_mod_cast hn
  have hvel : ∀ k : ℕ,
      (explosion.spawn_body lib (e.spawn lib now n v respawn rt lt rad) e.particles.length
          n v lt rad (e.particles.length + k) (particle.init lib now)).velocity =
        ⟨v * Real.cos (2 * Real.pi * k / n), v * Real.sin (2 * Real.pi * k / n)⟩ := by
    intro k
    rw [(explosion.spawn_body_fields lib _ _ n v lt rad k _).2.1, hpi, hcos, hsin]
    have ha : (k : ℝ) / (n : ℝ) * 2 * Real.pi = 2 * Real.pi * k / n := by ring
    rw [ha, mul_comm (Real.cos _) v, mul_comm (Real.sin _) v]
  refine ⟨fun k hk => ⟨_, explosion.spawn_new_particle lib e now n v respawn rt lt rad k hk,
    ?_, hvel k, ?_, by ring, by positivity, ?_⟩, ?_⟩
  · rw [(explosion.spawn_body_fields lib _ _ n v lt rad k _).1]
    exact (explosion.spawn_fields lib e now n v respawn rt lt rad).2.2.1
  · rw [hvel k]
    have h1 : (v * Real.cos (2 * Real.pi * k / n)) ^ 2 +
        (v * Real.sin (2 * Real.pi * k / n)) ^ 2 = v ^ 2 := by
      linear_combination v ^ 2 * Real.cos_sq_add_sin_sq (2 * Real.pi * k / n)
    rw [h1]
    exact Real.sqrt_sq_eq_abs v
  · rw [div_lt_iff₀ hn0]
    have hkn : (k : ℝ) < (n : ℝ) := by exact_mod_cast hk
    nlinarith [Real.pi_pos]
  · intro h4 h100
    subst h4 h100
    rw [explosion.spawn_particles, List.drop_left]
    simp only [List.range_succ_eq_map, List.range_zero, List.map_cons, List.map_nil,
      Nat.succ_eq_add_one, hvel]
    have c1 : 2 * Real.pi * ((0 + 1 : ℕ) : ℝ) / ((4 : ℕ) : ℝ) = Real.pi / 2 := by
      push_cast; ring
    have c2 : 2 * Real.pi * ((0 + 1 + 1 : ℕ) : ℝ) / ((4 : ℕ) : ℝ) = Real.pi := by
      push_cast; ring
    have c3 : 2 * Real.pi * ((0 + 1 + 1 + 1 : ℕ) : ℝ) / ((4 : ℕ) : ℝ)
        = Real.pi / 2 + Real.pi := by
      push_cast; ring
    rw [c1, c2, c3]
    simp [Real.cos_add, Real.sin_add]

/-- Witness for C6 (Scenario B): a fresh explosion, `spawn(4, 100, ...)`. -/
theorem C6_radial_fan_witness :
    1 ≤ 4 ∧
      (((explosion.init (sample_lib Real.pi Real.cos Real.sin (fun a _ => a)) 0
            ⟨0, 0, 0⟩).spawn (sample_lib Real.pi Real.cos Real.sin (fun a _ => a)) 0 4 100 2
            (1 / 100) 1 3).particles.drop
          (explosion.init (sample_lib Real.pi Real.cos Real.sin (fun a _ => a)) 0
            ⟨0, 0, 0⟩).particles.length).map (fun p => p.velocity) =
        [⟨100, 0⟩, ⟨0, 100⟩, ⟨-100, 0⟩, ⟨0, -100⟩] :=
  ⟨by norm_num,
    (C6_radial_fan (sample_lib Real.pi Real.cos Real.sin (fun a _ => a)) rfl rfl rfl _ 0 4 100
      2 (1 / 100) 1 3 (by norm_num)).2 rfl rfl⟩

/-- Claim C7. `spawn(n, speed, respawn, respawn_time, life_time, radius)` on a pool of `s`
particles leaves exactly `s + n` particles, keeps the first `s` particles as they were and in
their order, gives every new particle the given life-time and base radius and the active
flag true, and sets the pending respawn count and the respawn interval to the arguments. -/
theorem C7_spawn_appends {α C S : Type} [LinearOrderedField α] (lib : qlib α C S)
    (e : explosion α C S) (now : α) (n : ℕ) (v : α) (respawn : ℕ) (rt lt rad : α) :
    (e.spawn lib now n v respawn rt lt rad).particles.length = e.particles.length + n ∧
      (e.spawn lib now n v respawn rt lt rad).particles.take e.particles.length
        = e.particles ∧
      (∀ i, i < e.particles.length →
        (e.spawn lib now n v respawn rt lt rad).particles[i]? = e.particles[i]?) ∧
      (∀ p, p ∈ (e.spawn lib now n v respawn rt lt rad).particles.drop e.particles.length →
        p.life_time = lt ∧ p.radius = rad ∧ p.active = true) ∧
      (e.spawn lib now n v respawn rt lt rad).respawn = respawn ∧
      (e.spawn lib now n v respawn rt lt rad).respawn_time = rt := by
  refine ⟨explosion.spawn_length lib e now n v respawn rt lt rad, ?_, ?_, ?_,
    (explosion.spawn_fields lib e now n v respawn rt lt rad).1,
    (explosion.spawn_fields lib e now n v respawn rt lt rad).2.1⟩
  · rw [explosion.spawn_particles, List.take_left]
  · intro i hi
    rw [explosion.spawn_particles, List.getElem?_append_left hi]
  · intro p hp
    rw [explosion.spawn_particles, List.drop_left] at hp
    obtain ⟨k, _, rfl⟩ := List.mem_map.mp hp
    obtain ⟨_, _, h3, h4, h5⟩ :=
      explosion.spawn_body_fields lib (e.spawn lib now n v respawn rt lt rad)
        e.particles.length n v lt rad k (particle.init lib now)
    exact ⟨h3, h4, h5⟩

/-- Claim C8. `active()` is true iff at least one particle of the pool has its active flag
set; it is false for an empty pool and does not depend on the pending respawn count. -/
theorem C8_active_iff {α C S : Type} [LinearOrderedField α] (e : explosion α C S) :
    (e.active = true ↔ ∃ p, p ∈ e.particles ∧ p.active = true) ∧
      ({ e with particles := [] } : explosion α C S).active = false ∧
      (∀ n : ℕ, ({ e with respawn := n } : explosion α C S).active = e.active) :=
  ⟨any_active_iff e.particles, rfl, fun _ => rfl⟩

/-- Claim C9 (Scenario D). At a launch: if slot `k` holds the inactive rocket of lowest index,
the launch replaces exactly that slot with its randomized rocket, the pool size is unchanged
and every other slot is untouched; if no rocket is inactive, the pool grows by exactly one
slot appended at the end, which holds the randomized new rocket. In both cases the randomized
rocket is active and the number of active rockets grows by exactly one. -/
theorem C9_launch_reuse {α C S : Type} [LinearOrderedField α] (lib : qlib α C S)
    (rs : List (rocket α C)) (color_n width height : α) (d : rocket_draws α) (junk : α) :
    (∀ k r, rs[k]? = some r → r.active = false →
        (∀ j r', j < k → rs[j]? = some r' → r'.active = true) →
        main_state.launch lib rs color_n width height d junk =
            rs.set k (rocket.randomize lib r color_n width height d) ∧
          (main_state.launch lib rs color_n width height d junk).length = rs.length ∧
          (main_state.launch lib rs color_n width height d junk)[k]? =
            some (rocket.randomize lib r color_n width height d) ∧
          (∀ j, j ≠ k →
            (main_state.launch lib rs color_n width height d junk)[j]? = rs[j]?)) ∧
      ((∀ r, r ∈ rs → r.active = true) →
        main_state.launch lib rs color_n width height d junk =
            rs ++ [rocket.randomize lib (rocket.init lib junk) color_n width height d] ∧
          (main_state.launch lib rs color_n width height d junk).length = rs.length + 1) ∧
      (main_state.launch lib rs color_n width height d junk).countP (fun r => r.active) =
        rs.countP (fun r => r.active) + 1 ∧
      (∀ r : rocket α C, (rocket.randomize lib r color_n width height d).active = true) := by
  refine ⟨?_, ?_, ?_, fun _ => rfl⟩
  · intro k r hk hr hbefore
    have hscan := scan_first_found (fun i : rocket α C => !i.active)
      (fun i => rocket.randomize lib i color_n width height d) rs k r hk (by simp [hr])
      (fun j y hj hy => by simp [hbefore j y hj hy])
    have hl : main_state.launch lib rs color_n width height d junk =
        rs.set k (rocket.randomize lib r color_n width height d) := by
      unfold main_state.launch
      rw [launch_scan_eq, hscan]
      rfl
    have hklt : k < rs.length := by
      by_contra hc
      rw [List.getElem?_eq_none (not_lt.mp hc)] at hk
      cases hk
    refine ⟨hl, ?_, ?_, ?_⟩
    · rw [hl, List.length_set]
    · rw [hl, List.getElem?_set_self hklt]
    · intro j hj
      rw [hl, List.getElem?_set_ne (Ne.symm hj)]
  · intro hall
    have hscan := scan_first_none (fun i : rocket α C => !i.active)
      (fun i => rocket.randomize lib i color_n width height d) rs
      (fun x hx => by simp [hall x hx])
    have hl : main_state.launch lib rs color_n width height d junk =
        rs ++ [rocket.randomize lib (rocket.init lib junk) color_n width height d] := by
      unfold main_state.launch
      rw [launch_scan_eq, hscan]
      rfl
    exact ⟨hl, by rw [hl]; simp⟩
  · have hc := scan_first_count (fun i : rocket α C => !i.active)
      (fun i => rocket.randomize lib i color_n width height d)
      (fun x _ => by simp [rocket.randomize]) rs
    unfold main_state.launch
    rw [launch_scan_eq]
    have hr : (rocket.randomize lib (rocket.init lib junk) color_n width height d).active
        = true := rfl
    cases hfound : (scan_first (fun i : rocket α C => !i.active)
      (fun i => rocket.randomize lib i color_n width height d) rs).2
    · have h2 := hc.2 hfound
      simp only [hfound, Bool.not_false, if_true, h2, List.countP_append, List.countP_cons,
        List.countP_nil, hr]
    · have h1 := hc.1 hfound
      simp only [Bool.not_not] at h1
      simp only [hfound, Bool.not_true, Bool.false_eq_true, if_false]
      exact h1

/-- Witness for C9: a pool whose slot 0 is in flight and whose slots 1 and 2 are inactive;
the launch reuses slot 1. -/
theorem C9_launch_reuse_witness :
    main_state.launch rat_lib [flight_A, landed, landed] (1 / 2) 1400 950 ⟨700, 10, -400⟩ 0 =
      [flight_A, rocket.randomize rat_lib landed (1 / 2) 1400 950 ⟨700, 10, -400⟩, landed] :=
  ((C9_launch_reuse rat_lib [flight_A, landed, landed] (1 / 2) 1400 950 ⟨700, 10, -400⟩ 0).1
    1 landed rfl rfl (fun j r' hj hr' => by
      have h0 : j = 0 := by omega
      subst h0
      have : r' = flight_A := by simpa using hr'.symm
      subst this
      rfl)).1

/-- Claim C10. When the `update` of a rocket returns true in the rocket loop, the loop gives it
an explosion before it goes on: if slot `j` holds the explosion of lowest index whose
`active()` is false, that slot is cleared and reused and no other slot changes; if every
explosion is active, a new slot is appended. In both cases the chosen explosion has the
hue index of the dying rocket and its current position (the position after this update),
and holds exactly the particles of the one `spawn()` wave just made, all of them placed at
that position and active. -/
theorem C10_explosion_birth {α C S : Type} [LinearOrderedField α] (lib : qlib α C S)
    (es : List (explosion α C S)) (r : rocket α C) (rest : List (rocket α C))
    (inp : frame_input α) (k : ℕ) (hdie : (r.update inp.event).2 = true) :
    rockets_loop lib inp k (r :: rest) es =
        ((r.update inp.event).1 ::
          (rockets_loop lib inp (k + 1) rest
            (main_state.explode lib es (r.update inp.event).1 inp.event.now (inp.death k)
              (inp.fresh k))).1,
          (rockets_loop lib inp (k + 1) rest
            (main_state.explode lib es (r.update inp.event).1 inp.event.now (inp.death k)
              (inp.fresh k))).2) ∧
      (∀ j e, es[j]? = some e → e.active = false →
        (∀ j' e', j' < j → es[j']? = some e' → e'.active = true) →
        main_state.explode lib es (r.update inp.event).1 inp.event.now (inp.death k)
            (inp.fresh k) =
          es.set j ((e.clear lib inp.event.now).ignite lib (r.update inp.event).1
            inp.event.now (inp.death k)) ∧
        ((e.clear lib inp.event.now).ignite lib (r.update inp.event).1 inp.event.now
            (inp.death k)).color_n = r.color_n ∧
        ((e.clear lib inp.event.now).ignite lib (r.update inp.event).1 inp.event.now
            (inp.death k)).position = r.position.add (r.velocity.scale inp.event.frame_time) ∧
        ((e.clear lib inp.event.now).ignite lib (r.update inp.event).1 inp.event.now
            (inp.death k)).particles.length = (inp.death k).size ∧
        (∀ p, p ∈ ((e.clear lib inp.event.now).ignite lib (r.update inp.event).1
            inp.event.now (inp.death k)).particles →
          p.position = r.position.add (r.velocity.scale inp.event.frame_time) ∧
            p.active = true)) ∧
      ((∀ e, e ∈ es → e.active = true) →
        main_state.explode lib es (r.update inp.event).1 inp.event.now (inp.death k)
            (inp.fresh k) =
          es ++ [((explosion.init lib inp.event.now (inp.fresh k)).set_texture lib).ignite lib
            (r.update inp.event).1 inp.event.now (inp.death k)] ∧
        (((explosion.init lib inp.event.now (inp.fresh k)).set_texture lib).ignite lib
            (r.update inp.event).1 inp.event.now (inp.death k)).color_n = r.color_n ∧
        (((explosion.init lib inp.event.now (inp.fresh k)).set_texture lib).ignite lib
            (r.update inp.event).1 inp.event.now (inp.death k)).position =
          r.position.add (r.velocity.scale inp.event.frame_time) ∧
        (((explosion.init lib inp.event.now (inp.fresh k)).set_texture lib).ignite lib
            (r.update inp.event).1 inp.event.now (inp.death k)).particles.length =
          (inp.death k).size ∧
        (∀ p, p ∈ (((explosion.init lib inp.event.now (inp.fresh k)).set_texture lib).ignite
            lib (r.update inp.event).1 inp.event.now (inp.death k)).particles →
          p.position = r.position.add (r.velocity.scale inp.event.frame_time) ∧
            p.active = true)) := by
  obtain ⟨hcol, hpos⟩ := rocket.update_dying r inp.event hdie
  refine ⟨?_, ?_, ?_⟩
  · simp only [rockets_loop, hdie, if_true]
  · intro j e hj he hbefore
    have hscan := scan_first_found (fun e : explosion α C S => !e.active)
      (fun e => (e.clear lib inp.event.now).ignite lib (r.update inp.event).1 inp.event.now
        (inp.death k)) es j e hj (by simp [he]) (fun j' y hj' hy => by simp [hbefore j' y hj' hy])
    obtain ⟨f1, f2, f3, f4⟩ := explosion.ignite_fields lib (e.clear lib inp.event.now)
      (r.update inp.event).1 inp.event.now (inp.death k) rfl
    refine ⟨?_, f1.trans hcol, f2.trans hpos, f3, fun p hp => ?_⟩
    · unfold main_state.explode
      rw [explode_scan_eq, hscan]
      rfl
    · rw [← hpos]; exact f4 p hp
  · intro hall
    have hscan := scan_first_none (fun e : explosion α C S => !e.active)
      (fun e => (e.clear lib inp.event.now).ignite lib (r.update inp.event).1 inp.event.now
        (inp.death k)) es (fun x hx => by simp [hall x hx])
    obtain ⟨f1, f2, f3, f4⟩ := explosion.ignite_fields lib
      ((explosion.init lib inp.event.now (inp.fresh k)).set_texture lib)
      (r.update inp.event).1 inp.event.now (inp.death k) rfl
    refine ⟨?_, f1.trans hcol, f2.trans hpos, f3, fun p hp => ?_⟩
    · unfold main_state.explode
      rw [explode_scan_eq, hscan]
      rfl
    · rw [← hpos]; exact f4 p hp

/-- Witness for C10: the Scenario A rocket dies in a frame of 2 seconds while the explosion
pool is empty; a new explosion slot is appended. -/
theorem C10_explosion_birth_witness :
    (flight_A.update frame_A.event).2 = true ∧
      main_state.explode rat_lib [] (flight_A.update frame_A.event).1 frame_A.event.now
          (frame_A.death 0) (frame_A.fresh 0) =
        [] ++ [((explosion.init rat_lib frame_A.event.now (frame_A.fresh 0)).set_texture
          rat_lib).ignite rat_lib (flight_A.update frame_A.event).1 frame_A.event.now
          (frame_A.death 0)] :=
  have h : (flight_A.update frame_A.event).2 = true := by
    rw [rocket.update_snd_iff]
    norm_num [flight_A, frame_A, info.gravity]
  ⟨h, ((C10_explosion_birth rat_lib [] flight_A [] frame_A 0 h).2.2
    (fun _ he => by simp at he)).1⟩

/-- Claim C12. For an active particle with life-time `L > 0` and base radius `r`, whose age
read at the update is `t`: if `0 ≤ t < L` the particle is still active after `update`, its
display radius is `r * max 0 (1 - t / L) = r * (1 - t / L)` and its display colour is the
interpolation of start and end colour at `1 - t / L`; if `t ≥ L` it is inactive after
`update`. -/
theorem C12_particle_fade {α C S : Type} [LinearOrderedField α] (lib : qlib α C S)
    (p : particle α C) (event : event_info α) (hact : p.active = true)
    (hL : 0 < p.life_time) :
    (0 ≤ p.clock.elapsed_f event.now → p.clock.elapsed_f event.now < p.life_time →
        (particle.update lib p event).active = true ∧
          (particle.update lib p event).circle.radius =
            p.radius * max 0 (1 - p.clock.elapsed_f event.now / p.life_time) ∧
          (particle.update lib p event).circle.radius =
            p.radius * (1 - p.clock.elapsed_f event.now / p.life_time) ∧
          (particle.update lib p event).circle.color =
            lib.interpolated p.start_color p.end_color
              (1 - p.clock.elapsed_f event.now / p.life_time)) ∧
      (p.life_time ≤ p.clock.elapsed_f event.now →
        (particle.update lib p event).active = false) := by
  refine ⟨fun _ ht => ?_, particle.update_expired lib p event hact⟩
  rw [particle.update_alive lib p event hact ht]
  have hpos : 0 ≤ 1 - p.clock.elapsed_f event.now / p.life_time := by
    rw [sub_nonneg, div_le_one hL]
    exact le_of_lt ht
  exact ⟨hact, by simp [max_eq_right hpos], rfl, rfl⟩

/-- Witness for C12: a particle of life-time 1 read at age 1/2 is still active, with half
its base radius. -/
theorem C12_particle_fade_witness :
    spark.active = true ∧ 0 < spark.life_time ∧
      (particle.update rat_lib spark ⟨1 / 60, 1 / 2⟩).active = true ∧
      (particle.update rat_lib spark ⟨1 / 60, 1 / 2⟩).circle.radius =
        spark.radius * (1 - spark.clock.elapsed_f (1 / 2) / spark.life_time) :=
  have h := (C12_particle_fade rat_lib spark ⟨1 / 60, 1 / 2⟩ rfl (by norm_num [spark])).1
    (by norm_num [spark, clock.elapsed_f]) (by norm_num [spark, clock.elapsed_f])
  ⟨rfl, by norm_num [spark], h.1, h.2.2.1⟩

/-- Claim C18. Inactive entities are frozen: `particle::update` returns an inactive particle
unchanged in every field, and `rocket::update` on an inactive rocket returns false and leaves
the rocket unchanged in every field. -/
theorem C18_inactive_frozen {α C S : Type} [LinearOrderedField α] (lib : qlib α C S)
    (p : particle α C) (r : rocket α C) (event : event_info α) :
    (p.active = false → particle.update lib p event = p) ∧
      (r.active = false → (r.update event).2 = false ∧ (r.update event).1 = r) :=
  ⟨particle.update_noop lib p event,
    fun h => by rw [rocket.update_inactive r event h]; exact ⟨rfl, rfl⟩⟩

/-- Witness for C18: an expired particle and a landed rocket, updated with a frame of one
second. -/
theorem C18_inactive_frozen_witness :
    particle.update rat_lib { spark with active := false } ⟨1, 5⟩ =
        { spark with active := false } ∧
      (landed.update ⟨1, 5⟩).2 = false ∧ (landed.update ⟨1, 5⟩).1 = landed :=
  ⟨(C18_inactive_frozen rat_lib { spark with active := false } landed ⟨1, 5⟩).1 rfl,
    (C18_inactive_frozen rat_lib { spark with active := false } landed ⟨1, 5⟩).2 rfl⟩

/-- Claim C20. With the wave count drawn by `spawn()` in 1..4: if the pending respawn count
is not 0 and the respawn clock has elapsed, then after `update` the count is the drawn wave
count minus 1, a value of at most 3 that does not depend on the count before, and the
respawn interval is the freshly drawn one; if the count is 0 or the clock has not elapsed,
`update` leaves the count, the interval and the number of particles unchanged. -/
theorem C20_update_respawn {α C S : Type} [LinearOrderedField α] (lib : qlib α C S)
    (e : explosion α C S) (event : event_info α) (d : spawn_draws α)
    (hd : 1 ≤ d.respawn ∧ d.respawn ≤ 4) :
    (e.respawn ≠ 0 → e.respawn_clock.has_elapsed event.now e.respawn_time = true →
        (e.update lib event d).respawn = d.respawn - 1 ∧
          (e.update lib event d).respawn ≤ 3 ∧
          (e.update lib event d).respawn_time = d.respawn_time ∧
          (e.update lib event d).particles.length = e.particles.length + d.size) ∧
      (e.respawn = 0 ∨ e.respawn_clock.has_elapsed event.now e.respawn_time = false →
        (e.update lib event d).respawn = e.respawn ∧
          (e.update lib event d).respawn_time = e.respawn_time ∧
          (e.update lib event d).particles.length = e.particles.length) := by
  refine ⟨fun h0 hel => ?_, fun h => ?_⟩
  · have hdue : e.wave_due event = true := by simp [explosion.wave_due, h0, hel]
    obtain ⟨g1, g2, g3, _⟩ := explosion.update_wave lib e event d hdue
    have hval : (d.respawn + (2 ^ 64 - 1)) % 2 ^ 64 = d.respawn - 1 := by omega
    rw [g1, hval]
    exact ⟨rfl, by omega, g3, g2⟩
  · have hdue : e.wave_due event = false := by
      rcases h with h | h
      · exact explosion.wave_due_of_respawn_zero e event h
      · simp [explosion.wave_due, h]
    obtain ⟨g1, g2, g3, _⟩ := explosion.update_no_wave lib e event d hdue
    exact ⟨g1, g3, g2⟩

/-- Witness for C20: the Scenario C explosion (2 waves pending) updated at time 1 with a
drawn wave count of 4 is left with 3 pending waves. -/
theorem C20_update_respawn_witness :
    (1 ≤ (draws_with 4).respawn ∧ (draws_with 4).respawn ≤ 4) ∧
      (scenario_C.update rat_lib ⟨1, 1⟩ (draws_with 4)).respawn = (draws_with 4).respawn - 1 :=
  have hd : 1 ≤ (draws_with 4).respawn ∧ (draws_with 4).respawn ≤ 4 := by
    simp [draws_with]
  ⟨hd, ((C20_update_respawn rat_lib scenario_C ⟨1, 1⟩ (draws_with 4) hd).1
    (by rw [scenario_C_state.1]; decide)
    (by
      rw [clock.has_elapsed, clock.elapsed_f, scenario_C_state.2.1, scenario_C_state.2.2.1]
      norm_num)).1⟩

/-- Claim C15 fails on the code. With the interpolation `a + (b - a) * p`, a particle of
life-time 1 with start colour 0 and end colour 100 is displayed by `update` at age 0 in its
end colour 100, not its start colour; at every age `t < 1` its colour is `100 * (1 - t)`, so
that it moves away from the end colour as it ages (75 at age 1/4, 25 at age 3/4) and tends
to the start colour as the age tends to the life-time. -/
theorem C15_color_runs_backwards :
    (spark.start_color = some 0 ∧ spark.end_color = some 100 ∧ spark.life_time = 1) ∧
      (∀ a b p : ℚ, rat_lib.interpolated (some a) (some b) p = some (a + (b - a) * p)) ∧
      (particle.update rat_lib spark ⟨1 / 60, 0⟩).circle.color = some 100 ∧
      (particle.update rat_lib spark ⟨1 / 60, 1 / 4⟩).circle.color = some 75 ∧
      (particle.update rat_lib spark ⟨1 / 60, 3 / 4⟩).circle.color = some 25 ∧
      (∀ dt t : ℚ, 0 ≤ t → t < 1 →
        (particle.update rat_lib spark ⟨dt, t⟩).circle.color = some (100 * (1 - t))) := by
  have key : ∀ dt t : ℚ, t < 1 →
      (particle.update rat_lib spark ⟨dt, t⟩).circle.color = some (100 * (1 - t)) := by
    intro dt t ht
    rw [particle.update_alive rat_lib spark ⟨dt, t⟩ rfl
      (by simpa [spark, clock.elapsed_f] using ht)]
    simp [spark, clock.elapsed_f, rat_lib, sample_lib]
  refine ⟨⟨rfl, rfl, rfl⟩, fun a b p => rfl, ?_, ?_, ?_, fun dt t _ ht => key dt t ht⟩
  · rw [key _ 0 (by norm_num)]; norm_num
  · rw [key _ (1 / 4) (by norm_num)]; norm_num
  · rw [key _ (3 / 4) (by norm_num)]; norm_num

/-- Claim C11 (pool monotonicity). In every frame step, from every state and under any
clock readings and random draws, the rocket pool and the explosion pool are at least as
large after the step as before; hence along any sequence of frames neither pool size ever
decreases. -/
theorem C11_pool_monotone {α C S : Type} [LinearOrderedField α] (lib : qlib α C S)
    (m : main_state α C S) :
    (∀ inp : frame_input α,
        m.rockets.length ≤ (m.updating lib inp).rockets.length ∧
          m.explosions.length ≤ (m.updating lib inp).explosions.length) ∧
      (∀ (inp : ℕ → frame_input α) (j n : ℕ),
        (m.frames lib inp j).rockets.length ≤ (m.frames lib inp (j + n)).rockets.length ∧
          (m.frames lib inp j).explosions.length ≤
            (m.frames lib inp (j + n)).explosions.length) := by
  have step : ∀ (m' : main_state α C S) (inp : frame_input α),
      m'.rockets.length ≤ (m'.updating lib inp).rockets.length ∧
        m'.explosions.length ≤ (m'.updating lib inp).explosions.length := by
    intro m' inp
    refine ⟨?_, ?_⟩
    · rw [main_state.updating_rockets, List.length_map]
      split
      · exact main_state.launch_length lib _ _ _ _ _ _
      · exact Nat.le_refl _
    · rw [main_state.updating_explosions, update_explosions_length]
      exact rockets_loop_snd_length lib inp _ 0 m'.explosions
  refine ⟨step m, fun inp j n => ?_⟩
  induction n with
  | zero => exact ⟨Nat.le_refl _, Nat.le_refl _⟩
  | succ n ih =>
    obtain ⟨h1, h2⟩ := ih
    obtain ⟨s1, s2⟩ := step (m.frames lib inp (j + n)) (inp (j + n))
    exact ⟨Nat.le_trans h1 s1, Nat.le_trans h2 s2⟩

/-- Claim C16 fails on the code. At run time 10 s the slow colour cycle is
`fmod (10 / 20 + 0.5, 1) = 0`; with a jitter of -0.05 the hue passed to `randomize` is
`fmod (-0.05, 1) = -0.05`, because the truncating remainder keeps the sign of a negative
argument. The rocket launched by this frame from the empty start-up state carries the hue
index -0.05, which is not in `[0, 1)`. -/
theorem C16_hue_negative :
    frame_B.in_range ∧
      (∀ a b : ℚ, rat_lib.fmod a b = fmod_trunc a b) ∧
      fmod_trunc (fmod_trunc (frame_B.run_time / 20 + 1 / 2) 1 + frame_B.jitter) 1
        = -(1 / 20) ∧
      (((main_state.init 0 : main_state ℚ (Option ℚ) (vec ℚ × Option ℚ)).updating rat_lib
        frame_B).rockets.map (fun r => r.color_n)) = [-(1 / 20)] := by
  have hfm : ∀ a b : ℚ, rat_lib.fmod a b = fmod_trunc a b := by
    intro a b
    simp only [rat_lib, sample_lib, fmod_trunc]
    split <;> rfl
  have h1 : fmod_trunc (frame_B.run_time / 20 + 1 / 2) (1 : ℚ) = 0 := by
    have : frame_B.run_time / 20 + 1 / 2 = ((1 : ℤ) : ℚ) := by norm_num [frame_B]
    simp only [fmod_trunc, this, div_one, Int.floor_intCast, Int.ceil_intCast]
    norm_num
  have h2 : fmod_trunc (fmod_trunc (frame_B.run_time / 20 + 1 / 2) 1 + frame_B.jitter) 1
      = -(1 / 20) := by
    rw [h1]
    have hc : ⌈(-(1 / 20) : ℚ)⌉ = 0 := by
      rw [Int.ceil_eq_iff]; norm_num
    have hneg : ¬ (0 : ℚ) ≤ (0 + frame_B.jitter) / 1 := by norm_num [frame_B]
    simp only [fmod_trunc, if_neg hneg]
    norm_num [frame_B, hc]
  refine ⟨?_, hfm, h2, ?_⟩
  · refine ⟨by norm_num [frame_B], by norm_num [frame_B], by norm_num [frame_B],
      by norm_num [frame_B], ?_, ?_, ?_⟩
    · norm_num [frame_B, rocket_draws.in_range]
    · intro k; norm_num [frame_B, draws_with, spawn_draws.in_range]
    · intro j; norm_num [frame_B, draws_with, spawn_draws.in_range]
  · rw [main_state.updating_rockets, List.map_map]
    have hel : (main_state.init 0 :
        main_state ℚ (Option ℚ) (vec ℚ × Option ℚ)).spawn_clock.has_elapsed
        frame_B.event.now frame_B.interval = true := by
      norm_num [main_state.init, clock.has_elapsed, clock.elapsed_f, frame_B]
    rw [if_pos hel, hfm, hfm, h2]
    simp [main_state.launch, main_state.init, launch_scan, rocket.update_color_n,
      rocket.randomize]

/-- Claim C13, as stated, fails. The Scenario A rocket dies in a frame of 2 seconds while
the explosion pool is empty, so the explosion in slot 0 is brand-new in this frame. Right
after its `spawn()` the velocity of its secondary marker is (0, 0); at the end of the same
frame it is (0, 400): the explosion-update pass has already advanced the new explosion. -/
theorem C13_counterexample :
    pad_A.explosions = [] ∧
      (rockets_loop rat_lib frame_A 0 (pad_A.after_launch rat_lib frame_A)
          pad_A.explosions).2.map (fun e => e.sprite_velocity) = [⟨0, 0⟩] ∧
      (pad_A.updating rat_lib frame_A).explosions.map (fun e => e.sprite_velocity)
        = [⟨0, 400⟩] := by
  have hlaunch : pad_A.after_launch rat_lib frame_A = [flight_A] := by
    have hno : pad_A.spawn_clock.has_elapsed frame_A.event.now frame_A.interval = false := by
      norm_num [pad_A, frame_A, clock.has_elapsed, clock.elapsed_f]
    simp only [main_state.after_launch, hno, Bool.false_eq_true, if_false]
    rfl
  have hloop : (rockets_loop rat_lib frame_A 0 (pad_A.after_launch rat_lib frame_A)
      pad_A.explosions).2 =
      [((explosion.init rat_lib frame_A.event.now (frame_A.fresh 0)).set_texture
        rat_lib).ignite rat_lib (flight_A.update frame_A.event).1 frame_A.event.now
        (frame_A.death 0)] := by
    rw [hlaunch]
    simp only [rockets_loop, flight_A_dies, if_true]
    rfl
  have hsv : (((explosion.init rat_lib frame_A.event.now (frame_A.fresh 0)).set_texture
      rat_lib).ignite rat_lib (flight_A.update frame_A.event).1 frame_A.event.now
      (frame_A.death 0)).sprite_velocity = ⟨0, 0⟩ := by
    rw [(explosion.ignite_state rat_lib _ _ _ _ rfl).1]
    rfl
  refine ⟨rfl, ?_, ?_⟩
  · rw [hloop, List.map_cons, List.map_nil, hsv]
  · rw [main_state.updating_explosions_eq, hloop]
    simp only [update_explosions, List.map_cons, List.map_nil,
      explosion.update_sprite_velocity, hsv]
    norm_num [info.gravity, frame_A]

/-- Claim C13 (amended). The explosion-update pass at the end of a frame step advances every
explosion of the pool exactly once, the ones created or reclaimed in that same frame
included. For an explosion `e` just cleared or constructed at the frame's clock reading and
then spawned for a dead rocket, with draws in range, this first update triggers no respawn
wave and leaves the respawn counter, the respawn interval and the number of particles as
they were right after `spawn()`, but it already moves every particle by `velocity * dt`,
adds `gravity * dt` to its vertical velocity, and adds `gravity * dt` to the vertical
velocity of the secondary marker; all particles are still active. -/
theorem C13_new_explosion_updated {α C S : Type} [LinearOrderedField α] (lib : qlib α C S)
    (m : main_state α C S) (inp : frame_input α) (e : explosion α C S) (i : rocket α C)
    (d : spawn_draws α) (hd : d.in_range) (he : e.particles = [])
    (hc : e.respawn_clock = ⟨inp.event.now⟩) :
    (∀ j : ℕ, (m.updating lib inp).explosions[j]? =
        ((rockets_loop lib inp 0 (m.after_launch lib inp) m.explosions).2[j]?).map
          (fun x : explosion α C S => x.update lib inp.event (inp.wave j))) ∧
      (∀ w : spawn_draws α,
        ((e.ignite lib i inp.event.now d).update lib inp.event w).respawn =
            (e.ignite lib i inp.event.now d).respawn ∧
          ((e.ignite lib i inp.event.now d).update lib inp.event w).respawn_time =
            (e.ignite lib i inp.event.now d).respawn_time ∧
          ((e.ignite lib i inp.event.now d).update lib inp.event w).particles.length =
            (e.ignite lib i inp.event.now d).particles.length ∧
          ((e.ignite lib i inp.event.now d).update lib inp.event w).particles =
            (e.ignite lib i inp.event.now d).particles.map
              (fun p => particle.update lib p inp.event) ∧
          ((e.ignite lib i inp.event.now d).update lib inp.event w).sprite_velocity =
            ⟨(e.ignite lib i inp.event.now d).sprite_velocity.x,
              (e.ignite lib i inp.event.now d).sprite_velocity.y +
                info.gravity * inp.event.frame_time⟩) ∧
      (∀ p, p ∈ (e.ignite lib i inp.event.now d).particles →
        (particle.update lib p inp.event).active = true ∧
          (particle.update lib p inp.event).position =
            p.position.add (p.velocity.scale inp.event.frame_time) ∧
          (particle.update lib p inp.event).velocity =
            p.velocity.add ⟨0, info.gravity * inp.event.frame_time⟩) := by
  refine ⟨fun j => ?_, fun w => ?_, ?_⟩
  · rw [main_state.updating_explosions_eq, update_explosions_getElem]
    simp
  · obtain ⟨hdue, hps, _⟩ := explosion.first_update lib e i inp.event d w hd he hc
    obtain ⟨g1, g2, g3, _⟩ := explosion.update_no_wave lib _ inp.event w hdue
    exact ⟨g1, g3, g2, hps, explosion.update_sprite_velocity lib _ inp.event w⟩
  · exact (explosion.first_update lib e i inp.event d d hd he hc).2.2

/-- Witness for C13: the explosion constructed for the Scenario A rocket that dies in a
frame of 2 seconds; its marker has a vertical velocity of `0 + 200 * 2` after the frame. -/
theorem C13_new_explosion_updated_witness :
    (frame_A.death 0).in_range ∧
      ((((explosion.init rat_lib frame_A.event.now (frame_A.fresh 0)).set_texture
          rat_lib).ignite rat_lib (flight_A.update frame_A.event).1 frame_A.event.now
          (frame_A.death 0)).update rat_lib frame_A.event (frame_A.wave 0)).sprite_velocity =
        ⟨(((explosion.init rat_lib frame_A.event.now (frame_A.fresh 0)).set_texture
            rat_lib).ignite rat_lib (flight_A.update frame_A.event).1 frame_A.event.now
            (frame_A.death 0)).sprite_velocity.x,
          (((explosion.init rat_lib frame_A.event.now (frame_A.fresh 0)).set_texture
            rat_lib).ignite rat_lib (flight_A.update frame_A.event).1 frame_A.event.now
            (frame_A.death 0)).sprite_velocity.y + info.gravity * frame_A.event.frame_time⟩ :=
  ⟨frame_A_in_range.2.2.2.2.2.1 0,
    ((C13_new_explosion_updated rat_lib pad_A frame_A
      ((explosion.init rat_lib frame_A.event.now (frame_A.fresh 0)).set_texture rat_lib)
      (flight_A.update frame_A.event).1 (frame_A.death 0)
      (frame_A_in_range.2.2.2.2.2.1 0) rfl rfl).2.1 (frame_A.wave 0)).2.2.2.2⟩

/-- Claim C14. In every state the simulation can reach, an explosion without an active
particle has no respawn wave pending. In a frame step from such a state with draws in range,
whenever a rocket dies and the rocket loop reclaims a slot for it (the first explosion of the
current pool that is not active, which the loop clears and re-spawns), the explosion
reclaimed has no active particle and a pending respawn count of 0; and an explosion that
has respawn waves pending at any point of the loop is still in its slot, untouched, when the
loop ends: it is never reclaimed. The explosion-update pass then runs on the pool the loop
leaves. -/
theorem C14_reclaim_only_exhausted {α C S : Type} [LinearOrderedField α] (lib : qlib α C S)
    (m : main_state α C S) (inp : frame_input α) (hm : m.reachable lib)
    (hin : inp.in_range) :
    (∀ e, e ∈ m.explosions → e.active = false → e.respawn = 0) ∧
      (m.updating lib inp).explosions =
        update_explosions lib inp 0
          (rockets_loop lib inp 0 (m.after_launch lib inp) m.explosions).2 ∧
      (∀ (pre : List (rocket α C)) (r : rocket α C) (post : List (rocket α C)),
        m.after_launch lib inp = pre ++ r :: post → (r.update inp.event).2 = true →
        ∀ (j : ℕ) (e : explosion α C S),
          (rockets_loop lib inp 0 pre m.explosions).2[j]? = some e → e.active = false →
          (∀ j' e', j' < j → (rockets_loop lib inp 0 pre m.explosions).2[j']? = some e' →
            e'.active = true) →
          (rockets_loop lib inp 0 (pre ++ [r]) m.explosions).2 =
              ((rockets_loop lib inp 0 pre m.explosions).2).set j
                ((e.clear lib inp.event.now).ignite lib (r.update inp.event).1
                  inp.event.now (inp.death pre.length)) ∧
            e.respawn = 0) ∧
      (∀ (pre post : List (rocket α C)), m.after_launch lib inp = pre ++ post →
        ∀ (j : ℕ) (e : explosion α C S),
          (rockets_loop lib inp 0 pre m.explosions).2[j]? = some e → e.respawn ≠ 0 →
          (rockets_loop lib inp 0 (m.after_launch lib inp) m.explosions).2[j]? = some e) := by
  obtain ⟨_, _, _, _, _, hdeath, _⟩ := hin
  have hbirth : ∀ (now : α) (d : spawn_draws α) (e : explosion α C S) (i : rocket α C),
      d.in_range → e.particles = [] → e.respawn_clock = ⟨now⟩ →
      (e.ignite lib i now d).pending_ok :=
    fun now d e i hd _ hc => explosion.ignite_pending_ok lib e i now d hc hd
  have hall := main_state.reachable_forall lib (fun e => e.pending_ok) hbirth
    (fun event d e hd he => explosion.update_pending_ok lib e event d hd he) m hm
  have hpool : ∀ (pre : List (rocket α C)) (e : explosion α C S),
      e ∈ (rockets_loop lib inp 0 pre m.explosions).2 → e.pending_ok :=
    fun pre => rockets_loop_forall lib inp (fun e => e.pending_ok)
      (fun k x i hx hc => hbirth _ _ x i (hdeath k) hx hc) pre 0 m.explosions hall
  refine ⟨fun e he hina => explosion.inactive_respawn_zero e (hall e he) hina,
    main_state.updating_explosions_eq lib m inp, ?_, ?_⟩
  · intro pre r post _ hdie j e hj hina hbefore
    refine ⟨?_, explosion.inactive_respawn_zero e (hpool pre e (List.getElem?_mem hj)) hina⟩
    rw [rockets_loop_step, if_pos hdie, Nat.zero_add]
    have hscan := scan_first_found (fun e : explosion α C S => !e.active)
      (fun e => (e.clear lib inp.event.now).ignite lib (r.update inp.event).1 inp.event.now
        (inp.death pre.length)) (rockets_loop lib inp 0 pre m.explosions).2 j e hj
      (by simp [hina]) (fun j' y hj' hy => by simp [hbefore j' y hj' hy])
    unfold main_state.explode
    rw [explode_scan_eq, hscan]
    rfl
  · intro pre post hsplit j e hj hne
    obtain ⟨p, hp, hact, _, _⟩ := hpool pre e (List.getElem?_mem hj) hne
    have hea : e.active = true := (any_active_iff e.particles).mpr ⟨p, hp, hact⟩
    rw [hsplit, rockets_loop_append]
    exact rockets_loop_keeps_active lib inp post _ _ j e hj hea

/-- Witness for C14: the state reached from the empty start-up state by three frames of 2
seconds. Its pool holds an explosion that is not active with no wave pending (slot 0), an
active one with no wave pending and an active one with one wave pending. In the next frame
the launched rocket dies and the loop reclaims slot 0. -/
theorem C14_reclaim_only_exhausted_witness :
    (main_state.frames rat_lib (main_state.init 0) long_frames 3).reachable rat_lib ∧
      (long_frames 3).in_range ∧
      (main_state.frames rat_lib (main_state.init 0) long_frames 3).explosions.map
          (fun e => (e.active, e.respawn)) = [(false, 0), (true, 0), (true, 1)] ∧
      ∃ (r : rocket ℚ (Option ℚ)) (e : explosion ℚ (Option ℚ) (vec ℚ × Option ℚ)),
        (main_state.frames rat_lib (main_state.init 0) long_frames 3).after_launch rat_lib
            (long_frames 3) = [] ++ r :: [] ∧
          (r.update (long_frames 3).event).2 = true ∧
          (main_state.frames rat_lib (main_state.init 0) long_frames 3).explosions[0]?
            = some e ∧
          e.active = false ∧
          e.respawn = 0 ∧
          (rockets_loop rat_lib (long_frames 3) 0 ([] ++ [r])
              (main_state.frames rat_lib (main_state.init 0) long_frames 3).explosions).2 =
            (main_state.frames rat_lib (main_state.init 0) long_frames 3).explosions.set 0
              ((e.clear rat_lib (long_frames 3).event.now).ignite rat_lib
                (r.update (long_frames 3).event).1 (long_frames 3).event.now
                ((long_frames 3).death 0)) := by
  have hr : (main_state.frames rat_lib (main_state.init 0) long_frames 3).reachable rat_lib :=
    ⟨0, long_frames, 3, long_frames_in_range, rfl⟩
  have hpool : (main_state.frames rat_lib (main_state.init 0) long_frames 3).explosions.map
      (fun e => (e.active, e.respawn)) = [(false, 0), (true, 0), (true, 1)] := by decide!
  have hdies : ((main_state.frames rat_lib (main_state.init 0) long_frames 3).after_launch
      rat_lib (long_frames 3)).map (fun r => (r.update (long_frames 3).event).2) = [true] := by
    decide!
  refine ⟨hr, long_frames_in_range 3, hpool, ?_⟩
  obtain ⟨r, hrs⟩ : ∃ r, (main_state.frames rat_lib (main_state.init 0) long_frames
      3).after_launch rat_lib (long_frames 3) = [r] := by
    apply List.length_eq_one.mp
    have := congrArg List.length hdies
    simpa using this
  rw [hrs] at hdies
  have hdie : (r.update (long_frames 3).event).2 = true := by simpa using hdies
  cases hes : (main_state.frames rat_lib (main_state.init 0) long_frames 3).explosions with
  | nil => rw [hes] at hpool; simp at hpool
  | cons e rest =>
    rw [hes] at hpool
    have hina : e.active = false := by
      simp only [List.map_cons, List.cons.injEq, Prod.mk.injEq] at hpool
      exact hpool.1.1
    have hget : (rockets_loop rat_lib (long_frames 3) 0 []
        (main_state.frames rat_lib (main_state.init 0) long_frames 3).explosions).2[0]?
        = some e := by
      rw [hes]; simp [rockets_loop]
    obtain ⟨hloop, hzero⟩ := (C14_reclaim_only_exhausted rat_lib
      (main_state.frames rat_lib (main_state.init 0) long_frames 3) (long_frames 3) hr
      (long_frames_in_range 3)).2.2.1 [] r [] hrs hdie 0 e hget hina
      (fun j' _ hj' _ => absurd hj' (Nat.not_lt_zero j'))
    refine ⟨r, e, hrs, hdie, by simp, hina, hzero, ?_⟩
    rw [← hes]
    exact hloop

/-- Claim C17. In every state reachable from the empty start-up state by frame steps with
draws in range, every particle of every explosion has a life-time in `[0.5, 1.3]`, which
is strictly positive, so the division by the life-time in `particle::update` is never a
division by zero. -/
theorem C17_life_time_positive {α C S : Type} [LinearOrderedField α] (lib : qlib α C S)
    (m : main_state α C S) (hm : m.reachable lib) :
    ∀ e, e ∈ m.explosions → ∀ p, p ∈ e.particles →
      1 / 2 ≤ p.life_time ∧ p.life_time ≤ 13 / 10 ∧ 0 < p.life_time ∧ p.life_time ≠ 0 := by
  have hall := main_state.reachable_forall lib (fun e => e.lives_ok)
    (fun now d e i hd he _ => explosion.ignite_lives_ok lib e i now d he hd)
    (fun event d e hd he => explosion.update_lives_ok lib e event d hd he) m hm
  intro e he p hp
  obtain ⟨h1, h2⟩ := hall e he p hp
  have hpos : 0 < p.life_time := lt_of_lt_of_le (by norm_num) h1
  exact ⟨h1, h2, hpos, ne_of_gt hpos⟩

/-- Witness for C17: the state reached from the empty start-up state by one frame of 2
seconds, in which a rocket is launched and dies, so that the pool holds one explosion. -/
theorem C17_life_time_positive_witness :
    ((main_state.init 0 : main_state ℚ (Option ℚ) (vec ℚ × Option ℚ)).updating rat_lib
        frame_A).reachable rat_lib ∧
      ((main_state.init 0 : main_state ℚ (Option ℚ) (vec ℚ × Option ℚ)).updating rat_lib
        frame_A).explosions.length = 1 ∧
      (∀ e, e ∈ ((main_state.init 0 : main_state ℚ (Option ℚ) (vec ℚ × Option ℚ)).updating
          rat_lib frame_A).explosions → ∀ p, p ∈ e.particles → 0 < p.life_time) :=
  have hr : ((main_state.init 0 : main_state ℚ (Option ℚ) (vec ℚ × Option ℚ)).updating
      rat_lib frame_A).reachable rat_lib :=
    ⟨0, fun _ => frame_A, 1, fun _ => frame_A_in_range, rfl⟩
  ⟨hr, first_frame_A_explosions,
    fun e he p hp => (C17_life_time_positive rat_lib _ hr e he p hp).2.2.1⟩

/-- Claim C19. With draws in the coded ranges, the argument-less `spawn()` adds at least 5
particles, all of them active, so that `active()` is true afterwards. Consequently, in the
rocket loop of a frame step, the explosion made for a dying rocket is active, carries that
rocket's hue and position, and is still in its slot when the loop ends: no rocket that dies
later in the same frame is given that slot. Two rockets that die in the same frame
therefore get distinct slots, and at the end of the loop each slot holds the explosion of
its own rocket. -/
theorem C19_distinct_slots {α C S : Type} [LinearOrderedField α] (lib : qlib α C S)
    (inp : frame_input α) (hin : ∀ k, (inp.death k).in_range) :
    (∀ (e : explosion α C S) (now : α) (d : spawn_draws α), d.in_range →
        5 ≤ d.size ∧
          (e.spawn0 lib now d).particles.length = e.particles.length + d.size ∧
          (∀ p, p ∈ (e.spawn0 lib now d).particles.drop e.particles.length →
            p.active = true) ∧
          (e.spawn0 lib now d).active = true) ∧
      (∀ (es : List (explosion α C S)) (pre : List (rocket α C)) (r : rocket α C)
          (post : List (rocket α C)), (r.update inp.event).2 = true →
        ∃ x : explosion α C S,
          (rockets_loop lib inp 0 (pre ++ [r]) es).2[explode_slot
              (rockets_loop lib inp 0 pre es).2]? = some x ∧
            (∀ s, s ≠ explode_slot (rockets_loop lib inp 0 pre es).2 →
              (rockets_loop lib inp 0 (pre ++ [r]) es).2[s]? =
                (rockets_loop lib inp 0 pre es).2[s]?) ∧
            x.active = true ∧ x.color_n = r.color_n ∧
            x.position = (r.update inp.event).1.position ∧
            (rockets_loop lib inp 0 (pre ++ r :: post) es).2[explode_slot
              (rockets_loop lib inp 0 pre es).2]? = some x) ∧
      (∀ (es : List (explosion α C S)) (pre : List (rocket α C)) (r1 : rocket α C)
          (mid : List (rocket α C)) (r2 : rocket α C) (post : List (rocket α C)),
        (r1.update inp.event).2 = true → (r2.update inp.event).2 = true →
        explode_slot (rockets_loop lib inp 0 pre es).2 ≠
            explode_slot (rockets_loop lib inp 0 (pre ++ r1 :: mid) es).2 ∧
          ∃ x1 x2 : explosion α C S,
            (rockets_loop lib inp 0 (pre ++ r1 :: (mid ++ r2 :: post)) es).2[explode_slot
                (rockets_loop lib inp 0 pre es).2]? = some x1 ∧
              (rockets_loop lib inp 0 (pre ++ r1 :: (mid ++ r2 :: post)) es).2[explode_slot
                (rockets_loop lib inp 0 (pre ++ r1 :: mid) es).2]? = some x2 ∧
              x1.active = true ∧ x2.active = true ∧
              x1.color_n = r1.color_n ∧ x2.color_n = r2.color_n ∧
              x1.position = (r1.update inp.event).1.position ∧
              x2.position = (r2.update inp.event).1.position) := by
  have hn : ∀ k, 0 < (inp.death k).size := fun k =>
    (spawn_draws.interval_lt_life _ (hin k)).1
  have step : ∀ (es : List (explosion α C S)) (pre : List (rocket α C)) (r : rocket α C)
      (post : List (rocket α C)), (r.update inp.event).2 = true →
      ∃ x : explosion α C S,
        (rockets_loop lib inp 0 (pre ++ [r]) es).2[explode_slot
            (rockets_loop lib inp 0 pre es).2]? = some x ∧
          (∀ s, s ≠ explode_slot (rockets_loop lib inp 0 pre es).2 →
            (rockets_loop lib inp 0 (pre ++ [r]) es).2[s]? =
              (rockets_loop lib inp 0 pre es).2[s]?) ∧
          x.active = true ∧ x.color_n = r.color_n ∧
          x.position = (r.update inp.event).1.position ∧
          (rockets_loop lib inp 0 (pre ++ r :: post) es).2[explode_slot
            (rockets_loop lib inp 0 pre es).2]? = some x := by
    intro es pre r post hdie
    obtain ⟨⟨e0, he0, _, hslot⟩, hother⟩ := main_state.explode_at_slot lib
      (r.update inp.event).1 inp.event.now (inp.death (0 + pre.length))
      (inp.fresh (0 + pre.length)) (rockets_loop lib inp 0 pre es).2
    obtain ⟨f1, f2, _, _⟩ := explosion.ignite_fields lib e0 (r.update inp.event).1
      inp.event.now (inp.death (0 + pre.length)) he0
    have hact := explosion.ignite_active lib e0 (r.update inp.event).1 inp.event.now
      (inp.death (0 + pre.length)) he0 (hn _)
    have hstep := rockets_loop_step lib inp pre r 0 es
    rw [if_pos hdie] at hstep
    refine ⟨_, by rw [hstep]; exact hslot, fun s hs => by rw [hstep]; exact hother s hs,
      hact, f1.trans (rocket.update_color_n r inp.event), f2, ?_⟩
    have hsplit : pre ++ r :: post = (pre ++ [r]) ++ post := by simp
    rw [hsplit, rockets_loop_append]
    exact rockets_loop_keeps_active lib inp post _ _ _ _ (by rw [hstep]; exact hslot) hact
  refine ⟨fun e now d hd => ⟨hd.1, explosion.spawn_length lib e now _ _ _ _ _ _, ?_, ?_⟩,
    step, ?_⟩
  · intro p hp
    exact ((explosion.spawn_new_members lib e now d.size (d.velocity : α) d.respawn
      d.respawn_time d.life_time (if d.size < 10 then d.radius * d.boost else d.radius))
      p hp).2.2
  · obtain ⟨p, hp, _, hact, _⟩ := explosion.spawn_mem_new lib e now d.size (d.velocity : α)
      d.respawn d.respawn_time d.life_time
      (if d.size < 10 then d.radius * d.boost else d.radius)
      (spawn_draws.interval_lt_life d hd).1
    exact (any_active_iff _).mpr ⟨p, hp, hact⟩
  · intro es pre r1 mid r2 post h1 h2
    obtain ⟨x1, _, _, a1, c1, p1, k1⟩ := step es pre r1 (mid ++ r2 :: post) h1
    obtain ⟨y1, _, _, b1, _, _, m1⟩ := step es pre r1 mid h1
    obtain ⟨x2, _, _, a2, c2, p2, k2⟩ := step es (pre ++ r1 :: mid) r2 post h2
    have hassoc : (pre ++ r1 :: mid) ++ r2 :: post = pre ++ r1 :: (mid ++ r2 :: post) := by
      simp
    rw [hassoc] at k2
    refine ⟨fun heq => ?_, x1, x2, k1, k2, a1, a2, c1, c2, p1, p2⟩
    rw [heq] at m1
    have := explode_slot_inactive _ y1 m1
    rw [b1] at this
    cases this

/-- Witness for C19: the state reached from the empty start-up state by six frames of 1
second in which rockets of two speeds are launched in turn. In the next frame the first two
rockets of the pool die; the pool holds two explosions that are not active, and the two
rockets are given the slots 0 and 1. -/
theorem C19_distinct_slots_witness :
    (∀ k, ((parade 6).death k).in_range) ∧
      ((main_state.frames rat_lib (main_state.init 0) parade 6).after_launch rat_lib
          (parade 6)).map (fun r => (r.update (parade 6).event).2) = [true, true, false] ∧
      ∃ r1 r2 r3 : rocket ℚ (Option ℚ),
        (main_state.frames rat_lib (main_state.init 0) parade 6).after_launch rat_lib
            (parade 6) = [r1, r2, r3] ∧
          (r1.update (parade 6).event).2 = true ∧ (r2.update (parade 6).event).2 = true ∧
          explode_slot (rockets_loop rat_lib (parade 6) 0 []
            (main_state.frames rat_lib (main_state.init 0) parade 6).explosions).2 = 0 ∧
          explode_slot (rockets_loop rat_lib (parade 6) 0 ([] ++ r1 :: [])
            (main_state.frames rat_lib (main_state.init 0) parade 6).explosions).2 = 1 ∧
          explode_slot (rockets_loop rat_lib (parade 6) 0 []
              (main_state.frames rat_lib (main_state.init 0) parade 6).explosions).2 ≠
            explode_slot (rockets_loop rat_lib (parade 6) 0 ([] ++ r1 :: [])
              (main_state.frames rat_lib (main_state.init 0) parade 6).explosions).2 := by
  have hdies : ((main_state.frames rat_lib (main_state.init 0) parade 6).after_launch rat_lib
      (parade 6)).map (fun r => (r.update (parade 6).event).2) = [true, true, false] := by
    decide!
  have hs1 : explode_slot (rockets_loop rat_lib (parade 6) 0 []
      (main_state.frames rat_lib (main_state.init 0) parade 6).explosions).2 = 0 := by
    decide!
  have hs2 : explode_slot (rockets_loop rat_lib (parade 6) 0
      (((main_state.frames rat_lib (main_state.init 0) parade 6).after_launch rat_lib
        (parade 6)).take 1)
      (main_state.frames rat_lib (main_state.init 0) parade 6).explosions).2 = 1 := by
    decide!
  refine ⟨parade_deaths_in_range 6, hdies, ?_⟩
  obtain ⟨r1, r2, r3, hrs⟩ : ∃ r1 r2 r3, (main_state.frames rat_lib (main_state.init 0)
      parade 6).after_launch rat_lib (parade 6) = [r1, r2, r3] := by
    apply List.length_eq_three.mp
    have := congrArg List.length hdies
    simpa using this
  rw [hrs] at hdies hs2
  simp only [List.map_cons, List.map_nil, List.cons.injEq, and_true] at hdies
  have hs2' : explode_slot (rockets_loop rat_lib (parade 6) 0 ([] ++ r1 :: [])
      (main_state.frames rat_lib (main_state.init 0) parade 6).explosions).2 = 1 := by
    simpa using hs2
  exact ⟨r1, r2, r3, hrs, hdies.1, hdies.2.1, hs1, hs2',
    ((C19_distinct_slots rat_lib (parade 6) (parade_deaths_in_range 6)).2.2
      (main_state.frames rat_lib (main_state.init 0) parade 6).explosions [] r1 [] r2 [r3]
      hdies.1 hdies.2.1).1⟩

end Fireworks
